import Mathlib

/-!
# revcatgpt: the query-to-context handler `chatSearch`

A shallow embedding of `pkg/revcatgtpservice/api.go`.

* The handler `controller.chatSearch` is a pure function from the behaviour of
  its collaborators, the embedding cache and the query to the trace of effects
  it performs (collaborator calls, log line, HTTP responses) and the cache it
  leaves behind.
* The embedding cache is the LRU store built by `gcache.New(100).LRU().Build()`.
* The template helper `calcAspectSize` is embedded with its `float64` arithmetic: every
  operation is the exact rational result rounded to the nearest 53-bit float, ties to even.
-/

set_option autoImplicit false

namespace Revcatgpt

/-! ## HTTP responses -/

/-- Value of `http.StatusOK`. -/
abbrev StatusOK : Nat := 200

/-- Value of `http.StatusBadRequest`. -/
abbrev StatusBadRequest : Nat := 400

/-- Value of `http.StatusInternalServerError`. -/
abbrev StatusInternalServerError : Nat := 500

/-- What the handler writes to the gin context: `c.JSON(status, HTTPResultMessage{Message: m})`
or `c.Data(status, contentType, body)`. -/
inductive Response where
  | json (status : Nat) (message : String)
  | data (status : Nat) (contentType : String) (body : String)
  deriving DecidableEq, Repr

/-- Status code of a response. -/
def Response.status : Response → Nat
  | .json s _ => s
  | .data s _ _ => s

/-! ## The embedding cache (gcache LRU) -/

/-- Modelled from the spec: the embedding cache of section 4.1, the store that
`gcache.New(100).LRU().Build()` creates (library code, not part of the sources).
`items` is the eviction list, most recently used entry first; `size` is the capacity. -/
structure LRUCache (K V : Type) where
  size : Nat
  items : List (K × V)
  deriving DecidableEq, Repr

namespace LRUCache

variable {K V : Type} [DecidableEq K]

/-- The entry stored under `key`, if any. -/
def lookup (c : LRUCache K V) (key : K) : Option V :=
  (c.items.find? (fun p => decide (p.1 = key))).map Prod.snd

/-- Removes the first entry stored under `key`. -/
def eraseKey (items : List (K × V)) (key : K) : List (K × V) :=
  items.eraseP (fun p => decide (p.1 = key))

/-- Modelled from the spec: the cache read `get(key)` of section 4.1, the library call
`Get(key)`: a hit returns the value and moves the entry to the front of the
eviction list; a miss returns nothing (`KeyNotFoundError`) and leaves the store as it is. -/
def get (c : LRUCache K V) (key : K) : Option V × LRUCache K V :=
  match c.lookup key with
  | some v => (some v, { c with items := (key, v) :: eraseKey c.items key })
  | none => (none, c)

/-- Modelled from the spec: the cache write `put(key, Embedding)` of section 4.1, the library
call `Set(key, value)`: an existing entry is updated and moved to the front; a new
entry is pushed to the front after evicting the least recently used entry when the store is
full. -/
def set (c : LRUCache K V) (key : K) (value : V) : LRUCache K V :=
  match c.lookup key with
  | some _ => { c with items := (key, value) :: eraseKey c.items key }
  | none =>
    if c.items.length ≥ c.size then
      { c with items := (key, value) :: c.items.dropLast }
    else
      { c with items := (key, value) :: c.items }

end LRUCache

/-- The cache built in `NewController`: capacity 100, empty. -/
def newCache (K V : Type) : LRUCache K V := { size := 100, items := [] }

/-! ## Collaborators and effects -/

/-- Behaviour of everything `chatSearch` calls outside the handler body.
`Lng` is a lingua language, `Tag` a `language.Tag`, `Key` a SHA-1 digest, `F32`/`F64` the two
float widths and `Edge` a search edge. Errors are carried as their message text. -/
structure Collaborators (Lng Tag Key F32 F64 Edge : Type) where
  /-- The call `ctrl.langDetector.DetectLanguageOf(query)`: the language, when one is found. -/
  detectLanguageOf : String → Option Lng
  /-- The text `lng.IsoCode639_3().String()`. -/
  isoCode639_3 : Lng → String
  /-- The text `lng.String()`. -/
  lngString : Lng → String
  /-- The call `language.Parse`. -/
  languageParse : String → Except String Tag
  /-- The tag `language.English`. -/
  english : Tag
  /-- The text `lang.String()`. -/
  tagString : Tag → String
  /-- The digest `sha1.Sum([]byte(query))`. -/
  sha1Sum : String → Key
  /-- The call `ctrl.oaiClient.CreateEmbeddings` for the one-element input `[query]`: an error, or
  the `Embedding` field of every entry of the response `Data`. -/
  createEmbeddings : String → Except String (List (List F32))
  /-- The conversion `float64(v)`. -/
  toFloat64 : F32 → F64
  /-- The call `ctrl.client.VectorSearchShort(ctx, nil, embedding64, limit)`: an error, or the
  edges of the result in the order returned. -/
  vectorSearchShort : List F64 → Nat → Except String (List Edge)
  /-- The call `ctrl.template.Execute(buf, data)` for language `Lang` and edge `Source`: an
  error, or the text left in the buffer. -/
  templateExecute : String → Edge → Except String String
  /-- The estimate `NumTokensFromMessages` of one message with the given content for model
  `gpt-4-0314` (the function is declared in a file that is not part of the sources). -/
  numTokensFromMessages : String → Int

/-- One observable effect of the handler. -/
inductive Event (Key F32 F64 Edge : Type) where
  | detectLanguageOf (query : String)
  | cacheGet (key : Key)
  | cacheSet (key : Key) (embedding : List F32)
  | createEmbeddings (query : String)
  | vectorSearchShort (embedding : List F64) (limit : Nat)
  | templateExecute (lang : String) (edge : Edge)
  | logInfo (msg : String)
  | respond (r : Response)
  deriving DecidableEq, Repr

section Handler

variable {Lng Tag Key F32 F64 Edge : Type}

/-- Wrap-around of a Go `int` (64 bits, signed). -/
def wrapInt64 (x : Int) : Int := (x + 2 ^ 63) % 2 ^ 64 - 2 ^ 63

/-- The separator appended after every rendered fragment. -/
def separator : String := "\n\n---\n\n"

/-- The token ceiling of the render loop. -/
def tokenCeiling : Int := 3000

/-- The search limit passed to `VectorSearchShort`. -/
def searchLimit : Nat := 30

/-- Lines 256-265: the language used for rendering, or the 400 response. -/
def resolveLang (env : Collaborators Lng Tag Key F32 F64 Edge) (query : String) :
    Except Response Tag :=
  match env.detectLanguageOf query with
  | some lng =>
    match env.languageParse (env.isoCode639_3 lng) with
    | .ok lang => .ok lang
    | .error _ =>
      .error (.json StatusBadRequest ("cannot parse language " ++ env.lngString lng))
  | none => .ok env.english

/-- Lines 267-289: the embedding of the query, from the cache or from the provider. Returns the
effects, the cache afterwards and the embedding or the 500 response. -/
def resolveEmbedding [DecidableEq Key] (env : Collaborators Lng Tag Key F32 F64 Edge)
    (cache : LRUCache Key (List F32)) (query : String) :
    List (Event Key F32 F64 Edge) × LRUCache Key (List F32) × Except Response (List F32) :=
  let key := env.sha1Sum query
  let got := cache.get key
  let embedding : List F32 := match got.1 with
    | some v => v
    | none => []
  if embedding.length = 0 then
    match env.createEmbeddings query with
    | .error err =>
      ([.cacheGet key, .createEmbeddings query], got.2,
        .error (.json StatusInternalServerError
          ("cannot create embedding for query " ++ query ++ " - " ++ err)))
    | .ok [] =>
      ([.cacheGet key, .createEmbeddings query], got.2,
        .error (.json StatusInternalServerError
          ("no embedding returned for query " ++ query)))
    | .ok (first :: _) =>
      ([.cacheGet key, .createEmbeddings query, .cacheSet key first],
        got.2.set key first, .ok first)
  else
    ([.cacheGet key], got.2, .ok embedding)

/-- Lines 300-324: the render loop over the remaining edges, with the context and token count
accumulated so far. Returns the effects and either the 500 response of a failed render or the
final context and token count. -/
def renderLoop (env : Collaborators Lng Tag Key F32 F64 Edge) (query lang : String) :
    List Edge → String → Int →
    List (Event Key F32 F64 Edge) × Except Response (String × Int)
  | [], context, tokens => ([], .ok (context, tokens))
  | edge :: rest, context, tokens =>
    match env.templateExecute lang edge with
    | .error err =>
      ([.templateExecute lang edge],
        .error (.json StatusInternalServerError
          ("cannot execute template for query " ++ query ++ ": " ++ err)))
    | .ok text =>
      let tokens1 := wrapInt64 (tokens + env.numTokensFromMessages text)
      let context1 := context ++ (text ++ separator)
      if tokens1 > tokenCeiling then
        ([.templateExecute lang edge], .ok (context1, tokens1))
      else
        let r := renderLoop env query lang rest context1 tokens1
        (.templateExecute lang edge :: r.1, r.2)

/-- The handler `controller.chatSearch`: the effects it performs, in order, and the cache it
leaves. -/
def chatSearch [DecidableEq Key] (env : Collaborators Lng Tag Key F32 F64 Edge)
    (cache : LRUCache Key (List F32)) (query : String) :
    List (Event Key F32 F64 Edge) × LRUCache Key (List F32) :=
  if query = "" then
    ([.respond (.json StatusBadRequest "query is empty")], cache)
  else
    match resolveLang env query with
    | .error r => ([.detectLanguageOf query, .respond r], cache)
    | .ok lang =>
      let emb := resolveEmbedding env cache query
      match emb.2.2 with
      | .error r => ([.detectLanguageOf query] ++ emb.1 ++ [.respond r], emb.2.1)
      | .ok embedding =>
        let embedding64 := embedding.map env.toFloat64
        match env.vectorSearchShort embedding64 searchLimit with
        | .error err =>
          ([.detectLanguageOf query] ++ emb.1 ++
            [.vectorSearchShort embedding64 searchLimit,
             .respond (.json StatusInternalServerError
               ("cannot search for query " ++ query ++ ": " ++ err))], emb.2.1)
        | .ok edges =>
          let loop := renderLoop env query (env.tagString lang) edges "" 0
          match loop.2 with
          | .error r =>
            ([.detectLanguageOf query] ++ emb.1 ++
              [.vectorSearchShort embedding64 searchLimit] ++ loop.1 ++ [.respond r], emb.2.1)
          | .ok out =>
            ([.detectLanguageOf query] ++ emb.1 ++
              [.vectorSearchShort embedding64 searchLimit] ++ loop.1 ++
              [.logInfo ("tokens: " ++ toString out.2),
               .respond (.data StatusOK "text/plain" out.1)], emb.2.1)

/-! ## Reading a trace -/

/-- The responses written, in order. -/
def responses (tr : List (Event Key F32 F64 Edge)) : List Response :=
  tr.filterMap fun e => match e with
    | .respond r => some r
    | _ => none

/-- The number of calls to the embedding provider. -/
def embeddingCalls (tr : List (Event Key F32 F64 Edge)) : Nat :=
  tr.countP fun e => match e with
    | .createEmbeddings _ => true
    | _ => false

/-- The vectors submitted to the search client, in order. -/
def searchedVectors (tr : List (Event Key F32 F64 Edge)) : List (List F64) :=
  tr.filterMap fun e => match e with
    | .vectorSearchShort v _ => some v
    | _ => none

/-- The edges handed to the template, in order. -/
def renderedEdges (tr : List (Event Key F32 F64 Edge)) : List Edge :=
  tr.filterMap fun e => match e with
    | .templateExecute _ edge => some edge
    | _ => none

/-- The cache keys read or written, in order. -/
def cacheAccesses (tr : List (Event Key F32 F64 Edge)) : List Key :=
  tr.filterMap fun e => match e with
    | .cacheGet k => some k
    | .cacheSet k _ => some k
    | _ => none

/-- The queries handed to the language detector, in order. -/
def detectorCalls (tr : List (Event Key F32 F64 Edge)) : List String :=
  tr.filterMap fun e => match e with
    | .detectLanguageOf q => some q
    | _ => none

/-- The rendered fragments of `edges`, each followed by the separator, concatenated in order. -/
def fragments (render : Edge → String) : List Edge → String
  | [] => ""
  | e :: es => render e ++ separator ++ fragments render es

/-- A value a Go `int` can hold. -/
def inInt64 (x : Int) : Prop := -2 ^ 63 ≤ x ∧ x < 2 ^ 63

instance (x : Int) : Decidable (inInt64 x) := by
  unfold inInt64
  infer_instance

/-- Token estimate of the rendered text of an edge. -/
def cost (env : Collaborators Lng Tag Key F32 F64 Edge) (render : Edge → String)
    (e : Edge) : Int :=
  env.numTokensFromMessages (render e)

/-- The value of the Go `int` counter `tokens` after the loop has added the estimates of
`edges`, in order, to `tokens`. -/
def accumulate (env : Collaborators Lng Tag Key F32 F64 Edge) (render : Edge → String)
    (tokens : Int) : List Edge → Int
  | [] => tokens
  | e :: es => accumulate env render (wrapInt64 (tokens + cost env render e)) es

/-- The cumulative token total of the first `k` edges, as the counter `tokens` holds it. -/
def runningTokens (env : Collaborators Lng Tag Key F32 F64 Edge) (render : Edge → String)
    (edges : List Edge) (k : Nat) : Int :=
  accumulate env render 0 (edges.take k)

/-- Exact total of the token estimates of the first `k` edges. -/
def prefixTotal (env : Collaborators Lng Tag Key F32 F64 Edge) (render : Edge → String)
    (edges : List Edge) (k : Nat) : Int :=
  ((edges.take k).map (cost env render)).sum

end Handler

/-! ## The template helper `calcAspectSize` -/

/-- The result type `size` of `calcAspectSize`. -/
structure size where
  Width : Int
  Height : Int
  deriving DecidableEq, Repr

/-- Rounding of a number to the nearest whole number, ties to the even one. -/
def roundHalfEven (y : ℚ) : Int :=
  if y - ⌊y⌋ < 1 / 2 then ⌊y⌋
  else if 1 / 2 < y - ⌊y⌋ then ⌊y⌋ + 1
  else if ⌊y⌋ % 2 = 0 then ⌊y⌋ else ⌊y⌋ + 1

/-- The `float64` nearest to a number (IEEE 754 binary64, round to nearest, ties to even): the
number is scaled to a 53-bit significand, which is rounded to a whole number. The limits of
the exponent are left out: with `int64` arguments every value `calcAspectSize` computes is zero
or lies between `2 ^ (-63)` and `2 ^ 127`, inside the normal range. -/
def roundFloat64 (x : ℚ) : ℚ :=
  if x = 0 then 0
  else (roundHalfEven (x / (2 : ℚ) ^ (Int.log 2 |x| - 52)) : ℚ) * (2 : ℚ) ^ (Int.log 2 |x| - 52)

/-- The conversion `int64(x)` of a finite `float64`: truncation toward zero; a value outside
the `int64` range gives the smallest `int64` (what amd64 does; Go leaves this case to the
implementation). -/
def int64OfFloat64 (x : ℚ) : Int :=
  if -2 ^ 63 ≤ Int.tdiv x.num x.den ∧ Int.tdiv x.num x.den < 2 ^ 63 then Int.tdiv x.num x.den
  else -2 ^ 63

/-- The template function `calcAspectSize` (lines 87-101): `float64(n)` is `roundFloat64 n`,
and the quotient and the product of two floats are the exact results rounded. The result is
`none` in the runs that divide by zero, whose infinite and NaN values are not represented. -/
def calcAspectSize (width height maxWidth maxHeight : Int) : Option size :=
  if height = 0 ∨ maxHeight = 0 then none
  else
    let aspect := roundFloat64 (roundFloat64 width / roundFloat64 height)
    let maxAspect := roundFloat64 (roundFloat64 maxWidth / roundFloat64 maxHeight)
    if aspect > maxAspect then
      if aspect = 0 then none
      else some { Width := maxWidth,
                  Height := int64OfFloat64 (roundFloat64 (roundFloat64 maxWidth / aspect)) }
    else
      some { Width := int64OfFloat64 (roundFloat64 (roundFloat64 maxHeight * aspect)),
             Height := maxHeight }

/-! ## A concrete set of collaborators -/

/-- Collaborators over strings and numbers: the detector finds English unless the query
starts with `?`, every language code parses (`eng` to `en`), the provider fails on queries
starting with `!`, returns no result for queries starting with `~`, one empty vector for
queries starting with `0` and the vector `[1, 2, 3]` otherwise; the search fails on the vector
`[9]`, otherwise returns as many edges as the vector is long; the template fails on the edge
`bad`; every character counts as 500 tokens. -/
def sampleEnv : Collaborators String String String Nat Nat String where
  detectLanguageOf q := if q.front = '?' then none else some "eng"
  isoCode639_3 l := l
  lngString l := l
  languageParse s := .ok (if s = "eng" then "en" else "und")
  english := "en"
  tagString t := t
  sha1Sum q := q
  createEmbeddings q :=
    if q.front = '!' then .error "timeout"
    else if q.front = '~' then .ok []
    else if q.front = '0' then .ok [[]]
    else .ok [[1, 2, 3]]
  toFloat64 v := v
  vectorSearchShort v _ :=
    if v = [9] then .error "unavailable" else .ok (["aa", "bad", "cc", "dd"].take v.length)
  templateExecute lang e := if e = "bad" then .error "nil pointer" else .ok (lang ++ ":" ++ e)
  numTokensFromMessages t := 500 * t.length

/-- The collaborators of `sampleEnv` with a search that always returns three good edges. -/
def threeEdgeEnv : Collaborators String String String Nat Nat String :=
  { sampleEnv with vectorSearchShort := fun _ _ => .ok ["aa", "bb", "cc"] }

/-- The collaborators of `sampleEnv` with a search that always returns two good edges and an
estimate of 100 tokens per character. -/
def twoEdgeEnv : Collaborators String String String Nat Nat String :=
  { sampleEnv with
    vectorSearchShort := fun _ _ => .ok ["a", "b"]
    numTokensFromMessages := fun t => 100 * t.length }

/-- The collaborators of `sampleEnv` with a search that always returns no edge. -/
def emptySearchEnv : Collaborators String String String Nat Nat String :=
  { sampleEnv with vectorSearchShort := fun _ _ => .ok [] }

/-- The text `sampleEnv` renders for an edge in English. -/
def sampleRender (e : String) : String := "en:" ++ e

/-! # Theorems -/

/-! ## The cache -/

namespace LRUCache

variable {K V : Type} [DecidableEq K]

theorem lookup_cons_self (n : Nat) (key : K) (v : V) (items : List (K × V)) :
    lookup { size := n, items := (key, v) :: items } key = some v := by
  simp [lookup]

/-- A read that misses leaves the store as it is. -/
theorem get_of_lookup_none (c : LRUCache K V) (key : K) (h : c.lookup key = none) :
    c.get key = (none, c) := by
  simp [get, h]

/-- A read that hits returns the stored value and keeps it stored under the key. -/
theorem get_of_lookup_some (c : LRUCache K V) (key : K) (v : V) (h : c.lookup key = some v) :
    (c.get key).1 = some v ∧ (c.get key).2.lookup key = some v := by
  simp [get, h, lookup_cons_self]

/-- A write is visible to the next read of the same key. -/
theorem lookup_set_self (c : LRUCache K V) (key : K) (v : V) :
    (c.set key v).lookup key = some v := by
  unfold set
  cases h : c.lookup key with
  | some w => simp [lookup_cons_self]
  | none =>
    by_cases hfull : c.items.length ≥ c.size
    · simp [hfull, lookup_cons_self]
    · simp [hfull, lookup_cons_self]

end LRUCache

variable {Lng Tag Key F32 F64 Edge : Type}

/-! ## Reading a trace -/

theorem responses_append (a b : List (Event Key F32 F64 Edge)) :
    responses (a ++ b) = responses a ++ responses b := by
  simp [responses]

theorem renderedEdges_append (a b : List (Event Key F32 F64 Edge)) :
    renderedEdges (a ++ b) = renderedEdges a ++ renderedEdges b := by
  simp [renderedEdges]

theorem searchedVectors_append (a b : List (Event Key F32 F64 Edge)) :
    searchedVectors (a ++ b) = searchedVectors a ++ searchedVectors b := by
  simp [searchedVectors]

theorem embeddingCalls_append (a b : List (Event Key F32 F64 Edge)) :
    embeddingCalls (a ++ b) = embeddingCalls a + embeddingCalls b := by
  simp [embeddingCalls]

theorem renderedEdges_map (lang : String) (edges : List Edge) :
    renderedEdges ((edges.map (Event.templateExecute lang)) : List (Event Key F32 F64 Edge))
      = edges := by
  induction edges with
  | nil => rfl
  | cons e es ih =>
    simp only [renderedEdges] at ih
    simp [renderedEdges, ih]

theorem responses_map (lang : String) (edges : List Edge) :
    responses ((edges.map (Event.templateExecute lang)) : List (Event Key F32 F64 Edge))
      = [] := by
  induction edges with
  | nil => rfl
  | cons e es ih =>
    simp only [responses] at ih
    simp [responses, ih]

/-! ## The token counter -/

theorem wrapInt64_of_inInt64 (x : Int) (h : inInt64 x) : wrapInt64 x = x := by
  unfold inInt64 at h
  unfold wrapInt64
  omega

theorem prefixTotal_succ (env : Collaborators Lng Tag Key F32 F64 Edge) (render : Edge → String)
    (e : Edge) (es : List Edge) (k : Nat) :
    prefixTotal env render (e :: es) (k + 1) =
      env.numTokensFromMessages (render e) + prefixTotal env render es k := by
  simp [prefixTotal, cost]

theorem accumulate_take_succ (env : Collaborators Lng Tag Key F32 F64 Edge)
    (render : Edge → String) (tokens : Int) (e : Edge) (es : List Edge) (k : Nat) :
    accumulate env render tokens ((e :: es).take (k + 1)) =
      accumulate env render (wrapInt64 (tokens + env.numTokensFromMessages (render e)))
        (es.take k) := by
  simp [accumulate, cost]

/-- The counter holds the exact total as long as every exact running total fits a Go `int`. -/
theorem accumulate_eq_sum (env : Collaborators Lng Tag Key F32 F64 Edge)
    (render : Edge → String) :
    ∀ (edges : List Edge) (tokens : Int),
      (∀ k, k ≤ edges.length → inInt64 (tokens + prefixTotal env render edges k)) →
      accumulate env render tokens edges
        = tokens + prefixTotal env render edges edges.length := by
  intro edges
  induction edges with
  | nil => intro tokens _; simp [accumulate, prefixTotal]
  | cons e es ih =>
    intro tokens h
    have h1 := h 1 (by simp)
    rw [prefixTotal_succ] at h1
    have h0 : prefixTotal env render es 0 = 0 := by simp [prefixTotal]
    rw [h0, add_zero] at h1
    have hw := wrapInt64_of_inInt64 _ h1
    have hih := ih (tokens + env.numTokensFromMessages (render e)) (fun k hk => by
      have := h (k + 1) (by simpa using hk)
      rw [prefixTotal_succ] at this
      rw [add_assoc]; exact this)
    simp only [accumulate, cost, List.length_cons, prefixTotal_succ]
    rw [hw, hih, add_assoc]

/-- The cumulative total the counter holds is the exact total of the estimates whenever the
exact running totals fit a Go `int`. -/
theorem runningTokens_eq_prefixTotal (env : Collaborators Lng Tag Key F32 F64 Edge)
    (render : Edge → String) (edges : List Edge)
    (h : ∀ k, k ≤ edges.length → inInt64 (prefixTotal env render edges k)) :
    ∀ k, k ≤ edges.length → runningTokens env render edges k = prefixTotal env render edges k := by
  intro k hk
  have hlen : (edges.take k).length = k := by simp [hk]
  have htake : ∀ j, j ≤ k →
      prefixTotal env render (edges.take k) j = prefixTotal env render edges j := by
    intro j hj
    simp [prefixTotal, List.take_take, hj]
  have := accumulate_eq_sum env render (edges.take k) 0 (fun j hj => by
    rw [hlen] at hj
    rw [htake j hj, zero_add]
    exact h j (le_trans hj hk))
  rw [hlen, htake k (le_refl k), zero_add] at this
  exact this

/-! ## The render loop -/

/-- The render loop, started at or below the ceiling, on a list whose first `n` edges render
and where `n` is the first position at which the counter exceeds the ceiling (or the end of the
list): it renders exactly the first `n` edges and appends exactly their fragments. -/
theorem renderLoop_cut (env : Collaborators Lng Tag Key F32 F64 Edge) (query lang : String)
    (render : Edge → String) :
    ∀ (edges : List Edge) (n : Nat) (context : String) (tokens : Int),
      n ≤ edges.length → tokens ≤ tokenCeiling →
      (∀ e ∈ edges.take n, env.templateExecute lang e = .ok (render e)) →
      (∀ k, k < n → accumulate env render tokens (edges.take k) ≤ tokenCeiling) →
      (n = edges.length ∨ tokenCeiling < accumulate env render tokens (edges.take n)) →
      renderLoop env query lang edges context tokens =
        (((edges.take n).map (Event.templateExecute lang) : List (Event Key F32 F64 Edge)),
          .ok (context ++ fragments render (edges.take n),
            accumulate env render tokens (edges.take n))) := by
  intro edges
  induction edges with
  | nil =>
    intro n context tokens hn _ _ _ _
    have : n = 0 := by simpa using hn
    subst this
    simp [renderLoop, fragments, accumulate]
  | cons e es ih =>
    intro n context tokens hn htok hren hbelow hcut
    cases n with
    | zero =>
      exfalso
      rcases hcut with h | h
      · simp at h
      · simp only [List.take_zero, accumulate] at h; omega
    | succ m =>
      have hm : m ≤ es.length := by simpa using hn
      have he : env.templateExecute lang e = .ok (render e) := hren e (by simp)
      by_cases hover : tokenCeiling < wrapInt64 (tokens + env.numTokensFromMessages (render e))
      · have hm0 : m = 0 := by
          by_contra hne
          have := hbelow 1 (by omega)
          rw [accumulate_take_succ] at this
          simp only [List.take_zero, accumulate] at this
          omega
        subst hm0
        simp [renderLoop, he, hover, fragments, accumulate, cost]
      · have hle : wrapInt64 (tokens + env.numTokensFromMessages (render e)) ≤ tokenCeiling := by
          omega
        have hih := ih m (context ++ (render e ++ separator))
          (wrapInt64 (tokens + env.numTokensFromMessages (render e))) hm hle
          (fun x hx => hren x (by simp [hx]))
          (fun k hk => by
            have := hbelow (k + 1) (by omega)
            rw [accumulate_take_succ] at this
            exact this)
          (by
            rcases hcut with h | h
            · left; simpa using h
            · right; rw [accumulate_take_succ] at h; exact h)
        rw [accumulate_take_succ]
        simp [renderLoop, he, hover, hih, fragments, String.append_assoc]

/-- Every search result has a first position at which the counter exceeds the ceiling, or
none at all. -/
theorem exists_cut (env : Collaborators Lng Tag Key F32 F64 Edge) (render : Edge → String)
    (edges : List Edge) :
    ∃ n, n ≤ edges.length ∧
      (∀ k, k < n → runningTokens env render edges k ≤ tokenCeiling) ∧
      (n = edges.length ∨ tokenCeiling < runningTokens env render edges n) := by
  classical
  by_cases h : ∃ k, k ≤ edges.length ∧ tokenCeiling < runningTokens env render edges k
  · refine ⟨Nat.find h, (Nat.find_spec h).1, ?_, Or.inr (Nat.find_spec h).2⟩
    intro k hk
    have hmin := Nat.find_min h hk
    have hle : k ≤ edges.length := le_trans (le_of_lt hk) (Nat.find_spec h).1
    by_contra hgt
    exact hmin ⟨hle, by omega⟩
  · refine ⟨edges.length, le_refl _, ?_, Or.inl rfl⟩
    intro k hk
    by_contra hgt
    exact h ⟨k, le_of_lt hk, by omega⟩

/-- The render loop on a list in which an edge fails to render after a prefix that renders
and never lifts the counter above the ceiling: it renders the prefix and the failing edge, then
gives the 500 response. -/
theorem renderLoop_fail (env : Collaborators Lng Tag Key F32 F64 Edge) (query lang err : String)
    (render : Edge → String) (bad : Edge) (post : List Edge)
    (hfail : env.templateExecute lang bad = .error err) :
    ∀ (pre : List Edge) (context : String) (tokens : Int),
      (∀ e ∈ pre, env.templateExecute lang e = .ok (render e)) →
      (∀ k, 0 < k → k ≤ pre.length → accumulate env render tokens (pre.take k) ≤ tokenCeiling) →
      renderLoop env query lang (pre ++ bad :: post) context tokens =
        ((((pre ++ [bad]).map (Event.templateExecute lang)) : List (Event Key F32 F64 Edge)),
          .error (.json 500 ("cannot execute template for query " ++ query ++ ": " ++ err))) := by
  intro pre
  induction pre with
  | nil =>
    intro context tokens _ _
    simp [renderLoop, hfail]
  | cons e es ih =>
    intro context tokens hren hbelow
    have he : env.templateExecute lang e = .ok (render e) := hren e (by simp)
    have h1 := hbelow 1 (by omega) (by simp)
    rw [accumulate_take_succ] at h1
    simp only [List.take_zero, accumulate] at h1
    have hover : ¬ tokenCeiling < wrapInt64 (tokens + env.numTokensFromMessages (render e)) := by
      omega
    have hih := ih (context ++ (render e ++ separator))
      (wrapInt64 (tokens + env.numTokensFromMessages (render e)))
      (fun x hx => hren x (by simp [hx]))
      (fun k hk0 hk => by
        have := hbelow (k + 1) (by omega) (by simpa using hk)
        rw [accumulate_take_succ] at this
        exact this)
    simp [renderLoop, he, hover, hih]

/-- The render loop only performs template executions. -/
theorem renderLoop_trace (env : Collaborators Lng Tag Key F32 F64 Edge) (query lang : String) :
    ∀ (edges : List Edge) (context : String) (tokens : Int),
      responses (renderLoop env query lang edges context tokens).1
          = ([] : List Response)
        ∧ embeddingCalls (renderLoop env query lang edges context tokens).1
          = 0
        ∧ searchedVectors (renderLoop env query lang edges context tokens).1
          = ([] : List (List F64)) := by
  intro edges
  induction edges with
  | nil => intro context tokens; simp [renderLoop, responses, embeddingCalls, searchedVectors]
  | cons e es ih =>
    intro context tokens
    unfold renderLoop
    cases he : env.templateExecute lang e with
    | error err => simp [responses, embeddingCalls, searchedVectors]
    | ok text =>
      by_cases hover : tokenCeiling < wrapInt64 (tokens + env.numTokensFromMessages text)
      · simp [hover, responses, embeddingCalls, searchedVectors]
      · have := ih (context ++ (text ++ separator))
          (wrapInt64 (tokens + env.numTokensFromMessages text))
        simp only [responses, embeddingCalls, searchedVectors] at this
        simp [hover, responses, embeddingCalls, searchedVectors, this]

theorem separator_length : separator.length = 7 := by decide

theorem append_separator_ne_empty (text rest : String) : text ++ separator ++ rest ≠ "" := by
  intro h
  have h2 := congrArg String.length h
  simp [String.length_append, separator_length] at h2

/-- What the render loop can end with: a 500 response, or the context it started with followed
by a text that is empty exactly when no edge was rendered. -/
theorem renderLoop_result (env : Collaborators Lng Tag Key F32 F64 Edge) (query lang : String) :
    ∀ (edges : List Edge) (context : String) (tokens : Int),
      (∃ msg, (renderLoop env query lang edges context tokens :
          List (Event Key F32 F64 Edge) × Except Response (String × Int)).2
          = .error (.json 500 msg))
      ∨ (∃ added total, (renderLoop env query lang edges context tokens :
          List (Event Key F32 F64 Edge) × Except Response (String × Int)).2
            = .ok (context ++ added, total)
          ∧ (added = "" ↔ renderedEdges (renderLoop env query lang edges context tokens :
              List (Event Key F32 F64 Edge) × Except Response (String × Int)).1 = [])) := by
  intro edges
  induction edges with
  | nil =>
    intro context tokens
    right
    exact ⟨"", tokens, by simp [renderLoop], by simp [renderLoop, renderedEdges]⟩
  | cons e es ih =>
    intro context tokens
    unfold renderLoop
    cases he : env.templateExecute lang e with
    | error err => left; exact ⟨_, rfl⟩
    | ok text =>
      by_cases hover : tokenCeiling < wrapInt64 (tokens + env.numTokensFromMessages text)
      · right
        refine ⟨text ++ separator ++ "", wrapInt64 (tokens + env.numTokensFromMessages text),
          by simp [hover], ?_⟩
        simp only [hover, if_true]
        constructor
        · intro h; exact absurd h (append_separator_ne_empty _ _)
        · intro h; simp [renderedEdges] at h
      · rcases ih (context ++ (text ++ separator))
          (wrapInt64 (tokens + env.numTokensFromMessages text)) with ⟨msg, h⟩ | ⟨added, total, h, _⟩
        · left; exact ⟨msg, by simp [hover, h]⟩
        · right
          refine ⟨text ++ separator ++ added, total, by simp [hover, h, String.append_assoc], ?_⟩
          simp only [hover, if_false]
          constructor
          · intro h2; exact absurd h2 (append_separator_ne_empty _ _)
          · intro h2; simp [renderedEdges] at h2

/-! ## The steps of the handler -/

theorem resolveEmbedding_miss_error [DecidableEq Key] (env : Collaborators Lng Tag Key F32 F64 Edge)
    (cache : LRUCache Key (List F32)) (query err : String)
    (hmiss : cache.lookup (env.sha1Sum query) = none)
    (herr : env.createEmbeddings query = .error err) :
    resolveEmbedding env cache query =
      ([.cacheGet (env.sha1Sum query), .createEmbeddings query], cache,
        .error (.json 500 ("cannot create embedding for query " ++ query ++ " - " ++ err))) := by
  simp [resolveEmbedding, LRUCache.get_of_lookup_none _ _ hmiss, herr]

theorem resolveEmbedding_miss_empty [DecidableEq Key] (env : Collaborators Lng Tag Key F32 F64 Edge)
    (cache : LRUCache Key (List F32)) (query : String)
    (hmiss : cache.lookup (env.sha1Sum query) = none)
    (hzero : env.createEmbeddings query = .ok []) :
    resolveEmbedding env cache query =
      ([.cacheGet (env.sha1Sum query), .createEmbeddings query], cache,
        .error (.json 500 ("no embedding returned for query " ++ query))) := by
  simp [resolveEmbedding, LRUCache.get_of_lookup_none _ _ hmiss, hzero]

theorem message_ne (query err : String) :
    "no embedding returned for query " ++ query ≠
      "cannot create embedding for query " ++ query ++ " - " ++ err := by
  intro h
  have h2 := congrArg String.data h
  simp [String.data_append] at h2

/-- The only response the language step can give is a 400. -/
theorem resolveLang_error (env : Collaborators Lng Tag Key F32 F64 Edge) (query : String)
    (r : Response) (h : resolveLang env query = .error r) : ∃ msg, r = .json 400 msg := by
  unfold resolveLang at h
  split at h
  · split at h
    · cases h
    · injection h with h
      exact ⟨_, h.symm⟩
  · cases h

/-- The only response the embedding step can give is a 500. -/
theorem resolveEmbedding_error [DecidableEq Key] (env : Collaborators Lng Tag Key F32 F64 Edge)
    (cache : LRUCache Key (List F32)) (query : String) (r : Response)
    (h : (resolveEmbedding env cache query).2.2 = .error r) : ∃ msg, r = .json 500 msg := by
  unfold resolveEmbedding at h
  simp only [] at h
  split at h
  · split at h
    · injection h with h
      exact ⟨_, h.symm⟩
    · injection h with h
      exact ⟨_, h.symm⟩
    · cases h
  · cases h

/-- The embedding step writes no response, performs no search and renders nothing. -/
theorem resolveEmbedding_trace [DecidableEq Key] (env : Collaborators Lng Tag Key F32 F64 Edge)
    (cache : LRUCache Key (List F32)) (query : String) :
    responses (resolveEmbedding env cache query).1 = []
      ∧ searchedVectors (resolveEmbedding env cache query).1 = []
      ∧ renderedEdges (resolveEmbedding env cache query).1 = [] := by
  unfold resolveEmbedding
  simp only []
  split
  · split <;> simp [responses, searchedVectors, renderedEdges]
  · simp [responses, searchedVectors, renderedEdges]

/-- The embedding step when the provider returns a non-empty first embedding: it yields a
non-empty embedding that is stored under the key afterwards, with at most one provider call. -/
theorem resolveEmbedding_provider_ok [DecidableEq Key]
    (env : Collaborators Lng Tag Key F32 F64 Edge)
    (cache : LRUCache Key (List F32)) (query : String) (first : List F32)
    (rest : List (List F32))
    (hprov : env.createEmbeddings query = .ok (first :: rest)) (hne : first ≠ []) :
    ∃ v, v ≠ [] ∧ (resolveEmbedding env cache query).2.2 = .ok v
      ∧ (resolveEmbedding env cache query).2.1.lookup (env.sha1Sum query) = some v
      ∧ embeddingCalls (resolveEmbedding env cache query).1 ≤ 1 := by
  cases hl : cache.lookup (env.sha1Sum query) with
  | none =>
    refine ⟨first, hne, ?_, ?_, ?_⟩ <;>
      simp [resolveEmbedding, LRUCache.get_of_lookup_none _ _ hl, hprov,
        LRUCache.lookup_set_self, embeddingCalls]
  | some w =>
    have hg := LRUCache.get_of_lookup_some cache (env.sha1Sum query) w hl
    by_cases hw : w = []
    · refine ⟨first, hne, ?_, ?_, ?_⟩ <;>
        simp [resolveEmbedding, hg.1, hw, hprov, LRUCache.lookup_set_self, embeddingCalls]
    · refine ⟨w, hw, ?_, ?_, ?_⟩ <;>
        simp [resolveEmbedding, hg.1, hg.2, hw, embeddingCalls]

/-- The embedding step on a cache that holds a non-empty embedding under the key: the
embedding is taken from the cache and the provider is not called. -/
theorem resolveEmbedding_hit [DecidableEq Key]
    (env : Collaborators Lng Tag Key F32 F64 Edge)
    (cache : LRUCache Key (List F32)) (query : String) (v : List F32)
    (hl : cache.lookup (env.sha1Sum query) = some v) (hne : v ≠ []) :
    resolveEmbedding env cache query =
      ([.cacheGet (env.sha1Sum query)], (cache.get (env.sha1Sum query)).2, .ok v) := by
  have hg := LRUCache.get_of_lookup_some cache (env.sha1Sum query) v hl
  simp [resolveEmbedding, hg.1, hne]

/-- The handler once the language, the embedding and the search have succeeded: what is left is
the render loop and the final response. -/
theorem chatSearch_of_search_ok [DecidableEq Key] (env : Collaborators Lng Tag Key F32 F64 Edge)
    (cache : LRUCache Key (List F32)) (query : String) (lang : Tag) (embedding : List F32)
    (edges : List Edge)
    (hq : query ≠ "") (hlang : resolveLang env query = .ok lang)
    (hemb : (resolveEmbedding env cache query).2.2 = .ok embedding)
    (hsearch : env.vectorSearchShort (embedding.map env.toFloat64) searchLimit = .ok edges) :
    chatSearch env cache query =
      match (renderLoop env query (env.tagString lang) edges "" 0 :
          List (Event Key F32 F64 Edge) × Except Response (String × Int)).2 with
      | .error r =>
        ([.detectLanguageOf query] ++ (resolveEmbedding env cache query).1 ++
          [.vectorSearchShort (embedding.map env.toFloat64) searchLimit] ++
          (renderLoop env query (env.tagString lang) edges "" 0).1 ++ [.respond r],
          (resolveEmbedding env cache query).2.1)
      | .ok out =>
        ([.detectLanguageOf query] ++ (resolveEmbedding env cache query).1 ++
          [.vectorSearchShort (embedding.map env.toFloat64) searchLimit] ++
          (renderLoop env query (env.tagString lang) edges "" 0).1 ++
          [.logInfo ("tokens: " ++ toString out.2),
           .respond (.data StatusOK "text/plain" out.1)],
          (resolveEmbedding env cache query).2.1) := by
  simp only [chatSearch, hq, if_false, hlang, hemb, hsearch]

/-- The handler on a search result cut at position `n`, the first position at which the
counter exceeds the ceiling (or the end of the list), when the first `n` edges render: the
first `n` edges are rendered, in order, and the response is a 200 with their fragments. -/
theorem chatSearch_cut [DecidableEq Key] (env : Collaborators Lng Tag Key F32 F64 Edge)
    (cache : LRUCache Key (List F32)) (query : String) (lang : Tag) (embedding : List F32)
    (edges : List Edge) (render : Edge → String) (n : Nat)
    (hq : query ≠ "") (hlang : resolveLang env query = .ok lang)
    (hemb : (resolveEmbedding env cache query).2.2 = .ok embedding)
    (hsearch : env.vectorSearchShort (embedding.map env.toFloat64) searchLimit = .ok edges)
    (hn : n ≤ edges.length)
    (hrender : ∀ e ∈ edges.take n, env.templateExecute (env.tagString lang) e = .ok (render e))
    (hbelow : ∀ k, k < n → runningTokens env render edges k ≤ tokenCeiling)
    (hcut : n = edges.length ∨ tokenCeiling < runningTokens env render edges n) :
    renderedEdges (chatSearch env cache query).1 = edges.take n
      ∧ responses (chatSearch env cache query).1 =
        [Response.data 200 "text/plain" (fragments render (edges.take n))] := by
  have hloop := @renderLoop_cut Lng Tag Key F32 F64 Edge env query
    (env.tagString lang) render edges n "" 0 hn (by decide) hrender hbelow hcut
  have htr := resolveEmbedding_trace env cache query
  have hm1 := @renderedEdges_map Key F32 F64 Edge (env.tagString lang)
    (edges.take n)
  have hm2 := @responses_map Key F32 F64 Edge (env.tagString lang)
    (edges.take n)
  rw [chatSearch_of_search_ok env cache query lang embedding edges hq hlang hemb hsearch, hloop]
  simp only [renderedEdges_append, responses_append, htr.1, htr.2.2, hm1, hm2]
  simp [renderedEdges, responses, htr.1, htr.2.2]

/-- The handler once the language step has passed: exactly one response, a 200 with a
plain-text body that is empty exactly when no edge was rendered, or a 500 message. -/
theorem chatSearch_of_lang_ok [DecidableEq Key]
    (env : Collaborators Lng Tag Key F32 F64 Edge)
    (cache : LRUCache Key (List F32)) (query : String) (lang : Tag)
    (hq : query ≠ "") (hlang : resolveLang env query = .ok lang) :
    ∃ r, responses (chatSearch env cache query).1 = [r]
      ∧ ((∃ body, r = Response.data 200 "text/plain" body
            ∧ (body = "" ↔ renderedEdges (chatSearch env cache query).1 = []))
          ∨ (∃ msg, r = Response.json 500 msg)) := by
  have htr := resolveEmbedding_trace env cache query
  cases hemb : (resolveEmbedding env cache query).2.2 with
  | error r =>
    obtain ⟨msg, hmsg⟩ := resolveEmbedding_error env cache query r hemb
    refine ⟨r, ?_, Or.inr ⟨msg, hmsg⟩⟩
    simp only [chatSearch, hq, if_false, hlang, hemb, responses_append, htr.1]
    simp [responses]
  | ok embedding =>
    cases hsearch : env.vectorSearchShort (embedding.map env.toFloat64) searchLimit with
    | error err =>
      refine ⟨_, ?_, Or.inr ⟨"cannot search for query " ++ query ++ ": " ++ err, rfl⟩⟩
      simp only [chatSearch, hq, if_false, hlang, hemb, hsearch, responses_append, htr.1]
      simp [responses]
    | ok edges =>
      have hloop := @renderLoop_trace Lng Tag Key F32 F64 Edge env query
        (env.tagString lang) edges "" 0
      rw [chatSearch_of_search_ok env cache query lang embedding edges hq hlang hemb hsearch]
      rcases @renderLoop_result Lng Tag Key F32 F64 Edge env query
        (env.tagString lang) edges "" 0 with ⟨msg, h⟩ | ⟨added, total, h, hiff⟩
      · refine ⟨.json 500 msg, ?_, Or.inr ⟨msg, rfl⟩⟩
        rw [h]
        simp only [responses_append, htr.1, hloop.1]
        simp [responses]
      · refine ⟨.data 200 "text/plain" added, ?_, Or.inl ⟨added, rfl, ?_⟩⟩
        · rw [h]
          simp only [responses_append, htr.1, hloop.1]
          simp [responses]
        · rw [h]
          simp only [renderedEdges_append, htr.2.2]
          simpa [renderedEdges] using hiff

/-- The handler reads the cache once the language step has passed. -/
theorem chatSearch_cacheGet_mem [DecidableEq Key]
    (env : Collaborators Lng Tag Key F32 F64 Edge)
    (cache : LRUCache Key (List F32)) (query : String) (lang : Tag)
    (hq : query ≠ "") (hlang : resolveLang env query = .ok lang) :
    Event.cacheGet (env.sha1Sum query) ∈ (chatSearch env cache query).1 := by
  have hmem : Event.cacheGet (env.sha1Sum query) ∈ (resolveEmbedding env cache query).1 := by
    unfold resolveEmbedding
    simp only []
    split
    · split <;> simp
    · simp
  simp only [chatSearch, hq, if_false, hlang]
  split
  · simp [hmem]
  · split
    · simp [hmem]
    · split <;> simp [hmem]

/-- The handler once the language and the embedding are resolved: the cache it leaves is the
one the embedding step left, the provider calls are those of the embedding step, and the
search is called once, with the widened embedding. -/
theorem chatSearch_of_embedding_ok [DecidableEq Key]
    (env : Collaborators Lng Tag Key F32 F64 Edge)
    (cache : LRUCache Key (List F32)) (query : String) (lang : Tag) (embedding : List F32)
    (hq : query ≠ "") (hlang : resolveLang env query = .ok lang)
    (hemb : (resolveEmbedding env cache query).2.2 = .ok embedding) :
    (chatSearch env cache query).2 = (resolveEmbedding env cache query).2.1
      ∧ embeddingCalls (chatSearch env cache query).1
          = embeddingCalls (resolveEmbedding env cache query).1
      ∧ searchedVectors (chatSearch env cache query).1 = [embedding.map env.toFloat64] := by
  have htr := resolveEmbedding_trace env cache query
  cases hsearch : env.vectorSearchShort (embedding.map env.toFloat64) searchLimit with
  | error err =>
    simp only [chatSearch, hq, if_false, hlang, hemb, hsearch, embeddingCalls_append,
      searchedVectors_append, htr.2.1]
    simp [embeddingCalls, searchedVectors]
  | ok edges =>
    have hloop := @renderLoop_trace Lng Tag Key F32 F64 Edge env query
      (env.tagString lang) edges "" 0
    rw [chatSearch_of_search_ok env cache query lang embedding edges hq hlang hemb hsearch]
    cases hres : (renderLoop env query (env.tagString lang) edges "" 0 :
        List (Event Key F32 F64 Edge) × Except Response (String × Int)).2 with
    | error r =>
      simp only [embeddingCalls_append, searchedVectors_append, htr.2.1, hloop.2.1, hloop.2.2]
      simp [embeddingCalls, searchedVectors]
    | ok out =>
      simp only [embeddingCalls_append, searchedVectors_append, htr.2.1, hloop.2.1, hloop.2.2]
      simp [embeddingCalls, searchedVectors]

/-! ## The claims about the render loop -/

/-- C1. In `chatSearch`, for every search result whose edges all render and for every token
estimate, there is a position `n` such that no shorter prefix of the result has a cumulative
token total above 3000 and either `n` is the whole list or the first `n` estimates total more
than 3000; exactly the first `n` edges are rendered, in order, and the body of the 200
response is exactly their fragments, the last one in full. The cumulative total is the value
of the counter `tokens`, which is the exact sum whenever the exact sums fit a Go `int`. -/
theorem chatSearch_budget_cut [DecidableEq Key]
    (env : Collaborators Lng Tag Key F32 F64 Edge)
    (cache : LRUCache Key (List F32)) (query : String) (lang : Tag) (embedding : List F32)
    (edges : List Edge) (render : Edge → String)
    (hq : query ≠ "") (hlang : resolveLang env query = .ok lang)
    (hemb : (resolveEmbedding env cache query).2.2 = .ok embedding)
    (hsearch : env.vectorSearchShort (embedding.map env.toFloat64) 30 = .ok edges)
    (hrender : ∀ e ∈ edges, env.templateExecute (env.tagString lang) e = .ok (render e)) :
    ∃ n, n ≤ edges.length
      ∧ (∀ k, k < n → runningTokens env render edges k ≤ 3000)
      ∧ (n = edges.length ∨ 3000 < runningTokens env render edges n)
      ∧ renderedEdges (chatSearch env cache query).1 = edges.take n
      ∧ responses (chatSearch env cache query).1 =
          [Response.data 200 "text/plain" (fragments render (edges.take n))]
      ∧ ((∀ k, k ≤ edges.length → inInt64 (prefixTotal env render edges k)) →
          ∀ k, k ≤ edges.length →
            runningTokens env render edges k = prefixTotal env render edges k) := by
  obtain ⟨n, hn, hbelow, hcut⟩ := exists_cut env render edges
  have h := chatSearch_cut env cache query lang embedding edges render n hq hlang hemb hsearch hn
    (fun e he => hrender e (List.mem_of_mem_take he)) hbelow hcut
  exact ⟨n, hn, hbelow, hcut, h.1, h.2, runningTokens_eq_prefixTotal env render edges⟩

theorem sampleRender_three :
    ∀ e ∈ ["aa", "bb", "cc"],
      threeEdgeEnv.templateExecute (threeEdgeEnv.tagString "en") e = .ok (sampleRender e) := by
  intro e he
  simp only [List.mem_cons, List.mem_singleton, List.not_mem_nil, or_false] at he
  rcases he with rfl | rfl | rfl <;> rfl

/-- C1, witness: three edges of 2500 tokens each; the second one lifts the total above 3000. -/
theorem chatSearch_budget_cut_witness :
    ("who" ≠ "" ∧ resolveLang threeEdgeEnv "who" = .ok "en"
      ∧ (resolveEmbedding threeEdgeEnv (newCache String (List Nat)) "who").2.2 = .ok [1, 2, 3]
      ∧ threeEdgeEnv.vectorSearchShort ([1, 2, 3].map threeEdgeEnv.toFloat64) 30
          = .ok ["aa", "bb", "cc"])
    ∧ ∃ n, n ≤ ["aa", "bb", "cc"].length
      ∧ (∀ k, k < n → runningTokens threeEdgeEnv sampleRender ["aa", "bb", "cc"] k ≤ 3000)
      ∧ (n = ["aa", "bb", "cc"].length
          ∨ 3000 < runningTokens threeEdgeEnv sampleRender ["aa", "bb", "cc"] n)
      ∧ renderedEdges (chatSearch threeEdgeEnv (newCache String (List Nat)) "who").1
          = ["aa", "bb", "cc"].take n
      ∧ responses (chatSearch threeEdgeEnv (newCache String (List Nat)) "who").1 =
          [Response.data 200 "text/plain" (fragments sampleRender (["aa", "bb", "cc"].take n))]
      ∧ ((∀ k, k ≤ ["aa", "bb", "cc"].length →
            inInt64 (prefixTotal threeEdgeEnv sampleRender ["aa", "bb", "cc"] k)) →
          ∀ k, k ≤ ["aa", "bb", "cc"].length →
            runningTokens threeEdgeEnv sampleRender ["aa", "bb", "cc"] k
              = prefixTotal threeEdgeEnv sampleRender ["aa", "bb", "cc"] k) :=
  ⟨⟨by decide, rfl, rfl, rfl⟩,
    chatSearch_budget_cut threeEdgeEnv (newCache String (List Nat)) "who" "en" [1, 2, 3]
      ["aa", "bb", "cc"] sampleRender (by decide) rfl rfl rfl sampleRender_three⟩

/-- C2. In `chatSearch`, when the included edges (the first `n` of the search result, `n` the
budget cut) render, the only response is a 200 whose body is, in the order the search returned
them, the rendered text of each included edge followed by the separator; for a result of two
edges that are both included the body is `render f1 + sep + render f2 + sep`. -/
theorem chatSearch_body_in_search_order [DecidableEq Key]
    (env : Collaborators Lng Tag Key F32 F64 Edge)
    (cache : LRUCache Key (List F32)) (query : String) (lang : Tag) (embedding : List F32)
    (edges : List Edge) (render : Edge → String) (n : Nat)
    (hq : query ≠ "") (hlang : resolveLang env query = .ok lang)
    (hemb : (resolveEmbedding env cache query).2.2 = .ok embedding)
    (hsearch : env.vectorSearchShort (embedding.map env.toFloat64) 30 = .ok edges)
    (hn : n ≤ edges.length)
    (hrender : ∀ e ∈ edges.take n, env.templateExecute (env.tagString lang) e = .ok (render e))
    (hbelow : ∀ k, k < n → runningTokens env render edges k ≤ 3000)
    (hcut : n = edges.length ∨ 3000 < runningTokens env render edges n) :
    responses (chatSearch env cache query).1 =
        [Response.data 200 "text/plain" (fragments render (edges.take n))]
      ∧ renderedEdges (chatSearch env cache query).1 = edges.take n
      ∧ (∀ f1 f2, edges = [f1, f2] → n = 2 →
          responses (chatSearch env cache query).1 =
            [Response.data 200 "text/plain"
              (render f1 ++ "\n\n---\n\n" ++ render f2 ++ "\n\n---\n\n")]) := by
  have h := chatSearch_cut env cache query lang embedding edges render n hq hlang hemb hsearch hn
    hrender hbelow hcut
  refine ⟨h.2, h.1, ?_⟩
  intro f1 f2 hedges h2
  rw [h.2, hedges, h2]
  simp [fragments, separator, String.append_assoc]

theorem sampleRender_two :
    ∀ e ∈ ["a", "b"].take 2,
      twoEdgeEnv.templateExecute (twoEdgeEnv.tagString "en") e = .ok (sampleRender e) := by
  intro e he
  simp only [List.take, List.mem_cons, List.mem_singleton, List.not_mem_nil, or_false] at he
  rcases he with rfl | rfl <;> rfl

/-- C2, witness: two edges of 400 tokens each, both included. -/
theorem chatSearch_body_in_search_order_witness :
    ("who" ≠ "" ∧ resolveLang twoEdgeEnv "who" = .ok "en"
      ∧ (resolveEmbedding twoEdgeEnv (newCache String (List Nat)) "who").2.2 = .ok [1, 2, 3]
      ∧ twoEdgeEnv.vectorSearchShort ([1, 2, 3].map twoEdgeEnv.toFloat64) 30 = .ok ["a", "b"]
      ∧ (∀ k, k < 2 → runningTokens twoEdgeEnv sampleRender ["a", "b"] k ≤ 3000))
    ∧ responses (chatSearch twoEdgeEnv (newCache String (List Nat)) "who").1 =
        [Response.data 200 "text/plain" "en:a\n\n---\n\nen:b\n\n---\n\n"] :=
  ⟨⟨by decide, rfl, rfl, rfl, by decide⟩,
    (chatSearch_body_in_search_order twoEdgeEnv (newCache String (List Nat)) "who" "en"
      [1, 2, 3] ["a", "b"] sampleRender 2 (by decide) rfl rfl rfl (by decide) sampleRender_two
      (by decide) (Or.inl rfl)).2.2 "a" "b" rfl rfl⟩

/-- C8. In `chatSearch`, when the search result is a prefix `pre` that renders and never lifts
the cumulative token total above 3000, followed by an edge whose rendering fails, the only
response is a 500 carrying the template error message; it is built from the query and the
error alone, so no rendered text is returned, and there is no 200 response. -/
theorem chatSearch_render_failure [DecidableEq Key]
    (env : Collaborators Lng Tag Key F32 F64 Edge)
    (cache : LRUCache Key (List F32)) (query err : String) (lang : Tag) (embedding : List F32)
    (pre post : List Edge) (bad : Edge) (render : Edge → String)
    (hq : query ≠ "") (hlang : resolveLang env query = .ok lang)
    (hemb : (resolveEmbedding env cache query).2.2 = .ok embedding)
    (hsearch : env.vectorSearchShort (embedding.map env.toFloat64) 30 = .ok (pre ++ bad :: post))
    (hrender : ∀ e ∈ pre, env.templateExecute (env.tagString lang) e = .ok (render e))
    (hbelow : ∀ k, k ≤ pre.length → runningTokens env render pre k ≤ 3000)
    (hfail : env.templateExecute (env.tagString lang) bad = .error err) :
    responses (chatSearch env cache query).1 =
        [Response.json 500 ("cannot execute template for query " ++ query ++ ": " ++ err)]
      ∧ renderedEdges (chatSearch env cache query).1 = pre ++ [bad]
      ∧ (∀ r ∈ responses (chatSearch env cache query).1, r.status ≠ 200)
      ∧ (∀ body, Response.data 200 "text/plain" body ∉ responses (chatSearch env cache query).1)
      := by
  have hloop := @renderLoop_fail Lng Tag Key F32 F64 Edge env query
    (env.tagString lang) err render bad post hfail pre "" 0 hrender
    (fun k _ hk => hbelow k hk)
  have htr := resolveEmbedding_trace env cache query
  have hm1 := @renderedEdges_map Key F32 F64 Edge (env.tagString lang) (pre ++ [bad])
  have hm2 := @responses_map Key F32 F64 Edge (env.tagString lang) (pre ++ [bad])
  have hresp : responses (chatSearch env cache query).1 =
      [Response.json 500 ("cannot execute template for query " ++ query ++ ": " ++ err)] := by
    rw [chatSearch_of_search_ok env cache query lang embedding _ hq hlang hemb hsearch, hloop]
    simp only [responses_append, htr.1, hm2]
    simp [responses]
  refine ⟨hresp, ?_, ?_, ?_⟩
  · rw [chatSearch_of_search_ok env cache query lang embedding _ hq hlang hemb hsearch, hloop]
    simp only [renderedEdges_append, htr.2.2, hm1]
    simp [renderedEdges]
  · intro r hr
    rw [hresp] at hr
    simp at hr
    subst hr
    simp [Response.status]
  · intro body hmem
    rw [hresp] at hmem
    simp at hmem

theorem sampleRender_one :
    ∀ e ∈ ["aa"],
      sampleEnv.templateExecute (sampleEnv.tagString "en") e = .ok (sampleRender e) := by
  intro e he
  simp only [List.mem_cons, List.mem_singleton, List.not_mem_nil, or_false] at he
  subst he
  rfl

/-- C8, witness: the edge `bad` fails to render after the edge `aa` of 2500 tokens. -/
theorem chatSearch_render_failure_witness :
    ("who" ≠ "" ∧ resolveLang sampleEnv "who" = .ok "en"
      ∧ (resolveEmbedding sampleEnv (newCache String (List Nat)) "who").2.2 = .ok [1, 2, 3]
      ∧ sampleEnv.vectorSearchShort ([1, 2, 3].map sampleEnv.toFloat64) 30
          = .ok (["aa"] ++ "bad" :: ["cc"])
      ∧ (∀ k, k ≤ 1 → runningTokens sampleEnv sampleRender ["aa"] k ≤ 3000)
      ∧ sampleEnv.templateExecute (sampleEnv.tagString "en") "bad" = .error "nil pointer")
    ∧ responses (chatSearch sampleEnv (newCache String (List Nat)) "who").1 =
        [Response.json 500 "cannot execute template for query who: nil pointer"] :=
  ⟨⟨by decide, rfl, rfl, rfl, by decide, rfl⟩,
    (chatSearch_render_failure sampleEnv (newCache String (List Nat)) "who" "nil pointer" "en"
      [1, 2, 3] ["aa"] ["cc"] "bad" sampleRender (by decide) rfl rfl rfl sampleRender_one
      (by decide) rfl).1⟩

/-! ## The claims about the steps before the loop -/

/-- C7. An empty query is answered with status 400 and the message `query is empty`, and that
response is the only effect: no collaborator is called and the cache is returned as it was. -/
theorem chatSearch_empty_query [DecidableEq Key] (env : Collaborators Lng Tag Key F32 F64 Edge)
    (cache : LRUCache Key (List F32)) :
    chatSearch env cache "" = ([Event.respond (Response.json 400 "query is empty")], cache)
      ∧ detectorCalls (chatSearch env cache "").1 = []
      ∧ cacheAccesses (chatSearch env cache "").1 = []
      ∧ embeddingCalls (chatSearch env cache "").1 = 0
      ∧ searchedVectors (chatSearch env cache "").1 = []
      ∧ (chatSearch env cache "").2 = cache := by
  simp [chatSearch, detectorCalls, cacheAccesses, embeddingCalls, searchedVectors]

/-- The provider is only called after the language step has passed. -/
theorem resolveLang_ok_of_call [DecidableEq Key] (env : Collaborators Lng Tag Key F32 F64 Edge)
    (cache : LRUCache Key (List F32)) (query : String)
    (hcall : Event.createEmbeddings query ∈ (chatSearch env cache query).1) :
    query ≠ "" ∧ ∃ lang, resolveLang env query = .ok lang := by
  by_cases hq : query = ""
  · simp [chatSearch, hq] at hcall
  · refine ⟨hq, ?_⟩
    cases hlang : resolveLang env query with
    | error r => simp [chatSearch, hq, hlang] at hcall
    | ok lang => exact ⟨lang, rfl⟩

/-- C5. When a query misses the cache and the call of the embedding provider that
`chatSearch` makes for it returns an error, the only response is a 500 (with the message of
the provider error); the search client is not called, nothing is rendered, and the cache is
returned unchanged, still without an entry for the key. -/
theorem chatSearch_provider_error [DecidableEq Key]
    (env : Collaborators Lng Tag Key F32 F64 Edge)
    (cache : LRUCache Key (List F32)) (query err : String)
    (hq : query ≠ "")
    (hmiss : cache.lookup (env.sha1Sum query) = none)
    (hcall : Event.createEmbeddings query ∈ (chatSearch env cache query).1)
    (herr : env.createEmbeddings query = .error err) :
    responses (chatSearch env cache query).1 =
        [Response.json 500 ("cannot create embedding for query " ++ query ++ " - " ++ err)]
      ∧ (chatSearch env cache query).2 = cache
      ∧ (chatSearch env cache query).2.lookup (env.sha1Sum query) = none
      ∧ searchedVectors (chatSearch env cache query).1 = []
      ∧ renderedEdges (chatSearch env cache query).1 = [] := by
  obtain ⟨_, lang, hlang⟩ := resolveLang_ok_of_call env cache query hcall
  have h := resolveEmbedding_miss_error env cache query err hmiss herr
  simp [chatSearch, hq, hlang, h, responses, searchedVectors, renderedEdges, hmiss]

/-- C5, witness: the query `!q`, for which the provider of `sampleEnv` fails. -/
theorem chatSearch_provider_error_witness :
    "!q" ≠ ""
      ∧ (newCache String (List Nat)).lookup (sampleEnv.sha1Sum "!q") = none
      ∧ Event.createEmbeddings "!q" ∈ (chatSearch sampleEnv (newCache String (List Nat)) "!q").1
      ∧ sampleEnv.createEmbeddings "!q" = .error "timeout"
      ∧ responses (chatSearch sampleEnv (newCache String (List Nat)) "!q").1 =
          [Response.json 500 "cannot create embedding for query !q - timeout"] :=
  ⟨by decide, by decide, by decide, rfl,
    (chatSearch_provider_error sampleEnv (newCache String (List Nat)) "!q" "timeout"
      (by decide) (by decide) (by decide) rfl).1⟩

/-- C6. When a query misses the cache and the call of the embedding provider that
`chatSearch` makes for it succeeds with zero results, the only response is a 500 whose
message is `no embedding returned for query ` followed by the query; that message ends with
the query text and is different from the message of every provider error; the search client
is not called and the cache is returned unchanged. -/
theorem chatSearch_no_embedding [DecidableEq Key]
    (env : Collaborators Lng Tag Key F32 F64 Edge)
    (cache : LRUCache Key (List F32)) (query : String)
    (hq : query ≠ "")
    (hmiss : cache.lookup (env.sha1Sum query) = none)
    (hcall : Event.createEmbeddings query ∈ (chatSearch env cache query).1)
    (hzero : env.createEmbeddings query = .ok []) :
    responses (chatSearch env cache query).1 =
        [Response.json 500 ("no embedding returned for query " ++ query)]
      ∧ query.data <:+ ("no embedding returned for query " ++ query).data
      ∧ (∀ err : String, "no embedding returned for query " ++ query ≠
          "cannot create embedding for query " ++ query ++ " - " ++ err)
      ∧ (chatSearch env cache query).2 = cache
      ∧ searchedVectors (chatSearch env cache query).1 = [] := by
  obtain ⟨_, lang, hlang⟩ := resolveLang_ok_of_call env cache query hcall
  have h := resolveEmbedding_miss_empty env cache query hmiss hzero
  refine ⟨?_, ?_, fun err => message_ne query err, ?_, ?_⟩
  · simp [chatSearch, hq, hlang, h, responses]
  · rw [String.data_append]; exact List.suffix_append _ _
  · simp [chatSearch, hq, hlang, h]
  · simp [chatSearch, hq, hlang, h, searchedVectors]

/-- C6, witness: the query `~q`, for which the provider of `sampleEnv` returns no result. -/
theorem chatSearch_no_embedding_witness :
    "~q" ≠ ""
      ∧ (newCache String (List Nat)).lookup (sampleEnv.sha1Sum "~q") = none
      ∧ Event.createEmbeddings "~q" ∈ (chatSearch sampleEnv (newCache String (List Nat)) "~q").1
      ∧ sampleEnv.createEmbeddings "~q" = .ok []
      ∧ responses (chatSearch sampleEnv (newCache String (List Nat)) "~q").1 =
          [Response.json 500 "no embedding returned for query ~q"] :=
  ⟨by decide, by decide, by decide, rfl,
    (chatSearch_no_embedding sampleEnv (newCache String (List Nat)) "~q"
      (by decide) (by decide) (by decide) rfl).1⟩

/-- C3 (amended). For every non-empty query and every behaviour of the collaborators,
`chatSearch` writes exactly one response: a 200 with a plain-text body, which is empty exactly
when no edge was rendered, or a message with status 400, or a message with status 500. -/
theorem chatSearch_one_response [DecidableEq Key]
    (env : Collaborators Lng Tag Key F32 F64 Edge)
    (cache : LRUCache Key (List F32)) (query : String) (hq : query ≠ "") :
    ∃ r, responses (chatSearch env cache query).1 = [r]
      ∧ ((∃ body, r = Response.data 200 "text/plain" body
            ∧ (body = "" ↔ renderedEdges (chatSearch env cache query).1 = []))
          ∨ (∃ msg, r = Response.json 400 msg)
          ∨ (∃ msg, r = Response.json 500 msg)) := by
  cases hlang : resolveLang env query with
  | error r =>
    obtain ⟨msg, hmsg⟩ := resolveLang_error env query r hlang
    refine ⟨r, ?_, Or.inr (Or.inl ⟨msg, hmsg⟩)⟩
    simp [chatSearch, hq, hlang, responses]
  | ok lang =>
    obtain ⟨r, hr, h⟩ := chatSearch_of_lang_ok env cache query lang hq hlang
    rcases h with h | h
    · exact ⟨r, hr, Or.inl h⟩
    · exact ⟨r, hr, Or.inr (Or.inr h)⟩

/-- C3, counterexample. A non-empty query whose search returns no edge is answered with a 200
whose body is empty. -/
theorem chatSearch_empty_body :
    "who" ≠ "" ∧
      responses (chatSearch emptySearchEnv (newCache String (List Nat)) "who").1 =
        [Response.data 200 "text/plain" ""] := by
  decide

/-- C3, witness: the query `who` with the collaborators of `sampleEnv`. -/
theorem chatSearch_one_response_witness :
    "who" ≠ "" ∧ ∃ r, responses (chatSearch sampleEnv (newCache String (List Nat)) "who").1 = [r]
      ∧ ((∃ body, r = Response.data 200 "text/plain" body
            ∧ (body = "" ↔
              renderedEdges (chatSearch sampleEnv (newCache String (List Nat)) "who").1 = []))
          ∨ (∃ msg, r = Response.json 400 msg)
          ∨ (∃ msg, r = Response.json 500 msg)) :=
  ⟨by decide, chatSearch_one_response sampleEnv (newCache String (List Nat)) "who" (by decide)⟩

/-- C4 (amended). When the embedding provider succeeds with a non-empty first embedding, two
runs of `chatSearch` in succession with the same query on the same cache call the provider at
most once in total, the second run not at all; both runs submit the same vectors to the search
client, and for a non-empty query that passes the language step that is once, after the first
run, the embedding stored under the key of the query. -/
theorem chatSearch_twice [DecidableEq Key]
    (env : Collaborators Lng Tag Key F32 F64 Edge)
    (cache : LRUCache Key (List F32)) (query : String) (first : List F32)
    (rest : List (List F32))
    (hprov : env.createEmbeddings query = .ok (first :: rest)) (hne : first ≠ []) :
    embeddingCalls (chatSearch env cache query).1
        + embeddingCalls (chatSearch env (chatSearch env cache query).2 query).1 ≤ 1
      ∧ embeddingCalls (chatSearch env (chatSearch env cache query).2 query).1 = 0
      ∧ searchedVectors (chatSearch env (chatSearch env cache query).2 query).1
          = searchedVectors (chatSearch env cache query).1
      ∧ (query ≠ "" → ∀ lang, resolveLang env query = .ok lang →
          ∃ v, v ≠ []
            ∧ (chatSearch env cache query).2.lookup (env.sha1Sum query) = some v
            ∧ searchedVectors (chatSearch env cache query).1 = [v.map env.toFloat64]
            ∧ searchedVectors (chatSearch env (chatSearch env cache query).2 query).1
                = [v.map env.toFloat64]) := by
  by_cases hq : query = ""
  · simp [chatSearch, hq, embeddingCalls, searchedVectors]
  · cases hlang : resolveLang env query with
    | error r =>
      simp [chatSearch, hq, hlang, embeddingCalls, searchedVectors]
    | ok lang =>
      obtain ⟨v, hv, hemb, hlook, hcalls⟩ :=
        resolveEmbedding_provider_ok env cache query first rest hprov hne
      obtain ⟨hc1, he1, hs1⟩ := chatSearch_of_embedding_ok env cache query lang v hq hlang hemb
      have hlook1 : (chatSearch env cache query).2.lookup (env.sha1Sum query) = some v := by
        rw [hc1]; exact hlook
      have hhit := resolveEmbedding_hit env (chatSearch env cache query).2 query v hlook1 hv
      have hemb2 : (resolveEmbedding env (chatSearch env cache query).2 query).2.2 = .ok v := by
        rw [hhit]
      obtain ⟨_, he2, hs2⟩ :=
        chatSearch_of_embedding_ok env (chatSearch env cache query).2 query lang v hq hlang hemb2
      have hzero : embeddingCalls (chatSearch env (chatSearch env cache query).2 query).1 = 0 := by
        rw [he2, hhit]; simp [embeddingCalls]
      refine ⟨by rw [hzero, he1]; omega, hzero, by rw [hs2, hs1], ?_⟩
      intro _ lang2 _
      exact ⟨v, hv, hlook1, hs1, hs2⟩

/-- C4, counterexample. A provider that succeeds with zero results, or with one result whose
embedding is empty, is called in both of two successive runs with the same query. -/
theorem chatSearch_twice_two_calls :
    (sampleEnv.createEmbeddings "~q" = .ok []
      ∧ embeddingCalls (chatSearch sampleEnv (newCache String (List Nat)) "~q").1
        + embeddingCalls (chatSearch sampleEnv
            (chatSearch sampleEnv (newCache String (List Nat)) "~q").2 "~q").1 = 2)
    ∧ (sampleEnv.createEmbeddings "0q" = .ok [[]]
      ∧ embeddingCalls (chatSearch sampleEnv (newCache String (List Nat)) "0q").1
        + embeddingCalls (chatSearch sampleEnv
            (chatSearch sampleEnv (newCache String (List Nat)) "0q").2 "0q").1 = 2) :=
  ⟨⟨rfl, by decide⟩, ⟨rfl, by decide⟩⟩

/-- C4, witness: the query `who` on the empty cache, the provider returning `[1, 2, 3]`. -/
theorem chatSearch_twice_witness :
    (sampleEnv.createEmbeddings "who" = .ok ([1, 2, 3] :: []) ∧ [1, 2, 3] ≠ ([] : List Nat))
      ∧ embeddingCalls (chatSearch sampleEnv (newCache String (List Nat)) "who").1
          + embeddingCalls (chatSearch sampleEnv
              (chatSearch sampleEnv (newCache String (List Nat)) "who").2 "who").1 ≤ 1
      ∧ searchedVectors (chatSearch sampleEnv
            (chatSearch sampleEnv (newCache String (List Nat)) "who").2 "who").1
          = searchedVectors (chatSearch sampleEnv (newCache String (List Nat)) "who").1 :=
  ⟨⟨rfl, by decide⟩,
    (chatSearch_twice sampleEnv (newCache String (List Nat)) "who" [1, 2, 3] [] rfl
      (by decide)).1,
    (chatSearch_twice sampleEnv (newCache String (List Nat)) "who" [1, 2, 3] [] rfl
      (by decide)).2.2.1⟩

/-- C10. For every non-empty query, with a detector all of whose languages have an ISO 639-3
code that `language.Parse` accepts (as the languages of lingua do), the language step of
`chatSearch` always succeeds: it yields the tag of the detected language when the detector
finds one and English otherwise, and it does not end the request: the handler goes on to the
cache lookup and writes no 400 response. -/
theorem language_step [DecidableEq Key]
    (env : Collaborators Lng Tag Key F32 F64 Edge)
    (cache : LRUCache Key (List F32)) (query : String) (hq : query ≠ "")
    (hparse : ∀ lng, ∃ tag, env.languageParse (env.isoCode639_3 lng) = .ok tag) :
    (∃ tag, resolveLang env query = .ok tag)
      ∧ (env.detectLanguageOf query = none → resolveLang env query = .ok env.english)
      ∧ (∀ lng tag, env.detectLanguageOf query = some lng →
          env.languageParse (env.isoCode639_3 lng) = .ok tag → resolveLang env query = .ok tag)
      ∧ Event.cacheGet (env.sha1Sum query) ∈ (chatSearch env cache query).1
      ∧ (∀ msg, Response.json 400 msg ∉ responses (chatSearch env cache query).1) := by
  have hok : ∃ tag, resolveLang env query = .ok tag := by
    cases hd : env.detectLanguageOf query with
    | none => exact ⟨env.english, by simp [resolveLang, hd]⟩
    | some lng =>
      obtain ⟨tag, ht⟩ := hparse lng
      exact ⟨tag, by simp [resolveLang, hd, ht]⟩
  obtain ⟨tag, htag⟩ := hok
  refine ⟨⟨tag, htag⟩, ?_, ?_, chatSearch_cacheGet_mem env cache query tag hq htag, ?_⟩
  · intro h
    simp [resolveLang, h]
  · intro lng t h1 h2
    simp [resolveLang, h1, h2]
  · obtain ⟨r, hr, h⟩ := chatSearch_of_lang_ok env cache query tag hq htag
    intro msg hmem
    rw [hr] at hmem
    simp only [List.mem_singleton] at hmem
    rcases h with ⟨body, hb, _⟩ | ⟨m, hm⟩
    · rw [hb] at hmem; cases hmem
    · rw [hm] at hmem
      injection hmem with h1 _
      exact absurd h1 (by decide)

/-- C10, witness: the queries `who`, in which the detector of `sampleEnv` finds English, and
`?q`, in which it finds no language. -/
theorem language_step_witness :
    ("who" ≠ ""
      ∧ (∀ lng, ∃ tag, sampleEnv.languageParse (sampleEnv.isoCode639_3 lng) = .ok tag))
    ∧ resolveLang sampleEnv "who" = .ok "en"
    ∧ resolveLang sampleEnv "?q" = .ok sampleEnv.english
    ∧ (∀ msg, Response.json 400 msg ∉
        responses (chatSearch sampleEnv (newCache String (List Nat)) "who").1) :=
  ⟨⟨by decide, fun _ => ⟨_, rfl⟩⟩,
    (language_step sampleEnv (newCache String (List Nat)) "who" (by decide)
      (fun _ => ⟨_, rfl⟩)).2.2.1 "eng" "en" rfl rfl,
    (language_step sampleEnv (newCache String (List Nat)) "?q" (by decide)
      (fun _ => ⟨_, rfl⟩)).2.1 rfl,
    (language_step sampleEnv (newCache String (List Nat)) "who" (by decide)
      (fun _ => ⟨_, rfl⟩)).2.2.2.2⟩

/-! ## The template helper `calcAspectSize` -/

/-! ### The float rounding -/

theorem roundHalfEven_of_near (y : ℚ) (m : Int) (h1 : (m : ℚ) - 1 / 2 < y)
    (h2 : y < (m : ℚ) + 1 / 2) : roundHalfEven y = m := by
  unfold roundHalfEven
  by_cases hym : (m : ℚ) ≤ y
  · have hf : ⌊y⌋ = m := by
      rw [Int.floor_eq_iff]
      constructor
      · exact hym
      · linarith
    rw [hf, if_pos (by linarith)]
  · have hf : ⌊y⌋ = m - 1 := by
      rw [Int.floor_eq_iff]
      push_cast
      constructor
      · linarith
      · linarith
    rw [hf]
    push_cast
    rw [if_neg (by linarith), if_pos (by linarith)]
    ring

theorem roundHalfEven_of_tie_odd (y : ℚ) (m : Int) (h : y = (m : ℚ) + 1 / 2) (hodd : m % 2 = 1) :
    roundHalfEven y = m + 1 := by
  unfold roundHalfEven
  have hf : ⌊y⌋ = m := by
    rw [Int.floor_eq_iff]
    constructor <;> linarith
  rw [hf, if_neg (by linarith), if_neg (by linarith), if_neg (by omega)]

theorem roundHalfEven_abs_sub_le (y : ℚ) : |(roundHalfEven y : ℚ) - y| ≤ 1 / 2 := by
  have h1 := Int.floor_le y
  have h2 := Int.lt_floor_add_one y
  unfold roundHalfEven
  rw [abs_le]
  split
  · constructor <;> linarith
  · split
    · push_cast; constructor <;> linarith
    · split
      · constructor <;> linarith
      · push_cast; constructor <;> linarith

theorem log_eq_of_bounds (x : ℚ) (k : Int) (hx : 0 < x) (h1 : (2 : ℚ) ^ k ≤ x)
    (h2 : x < (2 : ℚ) ^ (k + 1)) : Int.log 2 x = k := by
  have a := (Int.zpow_le_iff_le_log (R := ℚ) (b := 2) (by norm_num) hx).mp (by exact_mod_cast h1)
  have b := (Int.lt_zpow_iff_log_lt (R := ℚ) (b := 2) (by norm_num) hx).mp (by exact_mod_cast h2)
  omega

/-- Evaluation of the rounding: a positive number in the binade of exponent `e + 52` that lies
strictly nearer to `m * 2 ^ e` than to its neighbours rounds to `m * 2 ^ e`. -/
theorem roundFloat64_of_near (x : ℚ) (e m : Int) (hx : 0 < x)
    (h1 : (2 : ℚ) ^ (e + 52) ≤ x) (h2 : x < (2 : ℚ) ^ (e + 52 + 1))
    (h3 : (m : ℚ) - 1 / 2 < x / (2 : ℚ) ^ e) (h4 : x / (2 : ℚ) ^ e < (m : ℚ) + 1 / 2) :
    roundFloat64 x = (m : ℚ) * (2 : ℚ) ^ e := by
  have hlog : Int.log 2 |x| = e + 52 := by
    rw [abs_of_pos hx]
    exact log_eq_of_bounds x (e + 52) hx h1 h2
  unfold roundFloat64
  rw [if_neg (ne_of_gt hx), hlog]
  have he : e + 52 - 52 = e := by ring
  rw [he, roundHalfEven_of_near _ m h3 h4]

theorem roundFloat64_of_tie_odd (x : ℚ) (e m : Int) (hx : 0 < x)
    (h1 : (2 : ℚ) ^ (e + 52) ≤ x) (h2 : x < (2 : ℚ) ^ (e + 52 + 1))
    (h3 : x / (2 : ℚ) ^ e = (m : ℚ) + 1 / 2) (hodd : m % 2 = 1) :
    roundFloat64 x = ((m + 1 : Int) : ℚ) * (2 : ℚ) ^ e := by
  have hlog : Int.log 2 |x| = e + 52 := by
    rw [abs_of_pos hx]
    exact log_eq_of_bounds x (e + 52) hx h1 h2
  unfold roundFloat64
  rw [if_neg (ne_of_gt hx), hlog]
  have he : e + 52 - 52 = e := by ring
  rw [he, roundHalfEven_of_tie_odd _ m h3 hodd]


/-- Rounding moves a positive number by at most the fraction `2 ^ (-53)` of it. -/
theorem roundFloat64_error (x : ℚ) (hx : 0 < x) : |roundFloat64 x - x| ≤ x / 2 ^ 53 := by
  have hk := Int.zpow_log_le_self (R := ℚ) (b := 2) (by norm_num) hx
  have hk2 : (2 : ℚ) ^ Int.log 2 x ≤ x := by exact_mod_cast hk
  have hpe : (0 : ℚ) < (2 : ℚ) ^ (Int.log 2 x - 52) := by positivity
  have hsplit : (2 : ℚ) ^ Int.log 2 x = (2 : ℚ) ^ (Int.log 2 x - 52) * 2 ^ 52 := by
    rw [← zpow_natCast (2 : ℚ) 52, ← zpow_add₀ (by norm_num : (2 : ℚ) ≠ 0)]
    congr 1
    ring
  have hr := roundHalfEven_abs_sub_le (x / (2 : ℚ) ^ (Int.log 2 x - 52))
  unfold roundFloat64
  rw [if_neg (ne_of_gt hx), abs_of_pos hx]
  have heq : (roundHalfEven (x / (2 : ℚ) ^ (Int.log 2 x - 52)) : ℚ) * (2 : ℚ) ^ (Int.log 2 x - 52) - x
      = ((roundHalfEven (x / (2 : ℚ) ^ (Int.log 2 x - 52)) : ℚ) - x / (2 : ℚ) ^ (Int.log 2 x - 52))
          * (2 : ℚ) ^ (Int.log 2 x - 52) := by
    field_simp
  rw [heq, abs_mul, abs_of_pos hpe]
  have h1 : |(roundHalfEven (x / (2 : ℚ) ^ (Int.log 2 x - 52)) : ℚ)
      - x / (2 : ℚ) ^ (Int.log 2 x - 52)| * (2 : ℚ) ^ (Int.log 2 x - 52)
      ≤ 1 / 2 * (2 : ℚ) ^ (Int.log 2 x - 52) :=
    mul_le_mul_of_nonneg_right hr (le_of_lt hpe)
  have h2 : 1 / 2 * (2 : ℚ) ^ (Int.log 2 x - 52) ≤ x / 2 ^ 53 := by
    rw [le_div_iff₀ (by positivity)]
    have : 1 / 2 * (2 : ℚ) ^ (Int.log 2 x - 52) * 2 ^ 53 = (2 : ℚ) ^ (Int.log 2 x - 52) * 2 ^ 52 := by
      ring
    rw [this, ← hsplit]
    exact hk2
  exact le_trans h1 h2

/-- Whole numbers below `2 ^ 53` are float64 values: rounding leaves them as they are. -/
theorem roundFloat64_intCast (n : Int) (h0 : 0 < n) (h1 : n < 2 ^ 53) :
    roundFloat64 (n : ℚ) = n := by
  have hx : (0 : ℚ) < n := by exact_mod_cast h0
  have hlt : Int.log 2 (n : ℚ) < 53 := by
    rw [← Int.lt_zpow_iff_log_lt (R := ℚ) (b := 2) (by norm_num) hx]
    have h2 : n < 9007199254740992 := by norm_num at h1; exact h1
    have h3 : (n : ℚ) < 9007199254740992 := by exact_mod_cast h2
    norm_num
    exact h3
  obtain ⟨j, hj⟩ : ∃ j : ℕ, Int.log 2 (n : ℚ) - 52 = -(j : Int) :=
    ⟨(52 - Int.log 2 (n : ℚ)).toNat, by omega⟩
  unfold roundFloat64
  rw [if_neg (ne_of_gt hx), abs_of_pos hx, hj, zpow_neg, zpow_natCast]
  have hy : (n : ℚ) / ((2 : ℚ) ^ j)⁻¹ = ((n * 2 ^ j : Int) : ℚ) := by
    push_cast
    field_simp
  rw [hy, roundHalfEven_of_near _ (n * 2 ^ j) (by linarith) (by linarith)]
  push_cast
  field_simp

theorem roundFloat64_pos (x : ℚ) (hx : 0 < x) : 0 < roundFloat64 x := by
  have h := roundFloat64_error x hx
  rw [abs_le] at h
  have : x / 2 ^ 53 < x := by
    rw [div_lt_iff₀ (by positivity)]
    nlinarith
  linarith


theorem int64OfFloat64_of_nonneg (x : ℚ) (hx : 0 ≤ x) (hlt : ⌊x⌋ < 2 ^ 63) :
    int64OfFloat64 x = ⌊x⌋ := by
  have ht : Int.tdiv x.num x.den = ⌊x⌋ := by
    rw [Rat.floor_def]
    exact Int.tdiv_eq_ediv (Rat.num_nonneg.mpr hx) (by positivity)
  have h0 : 0 ≤ ⌊x⌋ := Int.floor_nonneg.mpr hx
  unfold int64OfFloat64
  rw [ht, if_pos ⟨by omega, hlt⟩]

/-- A number within `1 / q` of the fraction `p / q` has a floor `r` with
`r * q ≤ p ≤ (r + 1) * q`. -/
theorem floor_near_fraction (x : ℚ) (p q : Int) (hq : 0 < q)
    (h1 : x * q < p + 1) (h2 : (p : ℚ) - 1 < x * q) :
    ⌊x⌋ * q ≤ p ∧ p ≤ (⌊x⌋ + 1) * q := by
  have hqq : (0 : ℚ) < q := by exact_mod_cast hq
  have hf1 := Int.floor_le x
  have hf2 := Int.lt_floor_add_one x
  constructor
  · have : ((⌊x⌋ * q : Int) : ℚ) < ((p + 1 : Int) : ℚ) := by
      push_cast
      nlinarith
    have := Int.cast_lt.mp this
    omega
  · have : ((p - 1 : Int) : ℚ) < (((⌊x⌋ + 1) * q : Int) : ℚ) := by
      push_cast
      nlinarith
    have := Int.cast_lt.mp this
    omega


/-- The rounded quotient of two whole numbers, multiplied back by the divisor, is within the
fraction `2 ^ (-53)` of the dividend. -/
theorem roundFloat64_div_bounds (a b : ℚ) (ha : 0 < a) (hb : 0 < b) :
    a - a / 2 ^ 53 ≤ roundFloat64 (a / b) * b ∧ roundFloat64 (a / b) * b ≤ a + a / 2 ^ 53 := by
  have h := roundFloat64_error (a / b) (div_pos ha hb)
  rw [abs_le] at h
  have e1 : a / b * b = a := div_mul_cancel₀ a (ne_of_gt hb)
  have e2 : a / b / 2 ^ 53 * b = a / 2 ^ 53 := by
    field_simp
    ring
  have h1 := mul_le_mul_of_nonneg_right h.1 (le_of_lt hb)
  have h2 := mul_le_mul_of_nonneg_right h.2 (le_of_lt hb)
  rw [sub_mul, e1] at h1 h2
  rw [neg_mul, e2] at h1
  rw [e2] at h2
  constructor <;> linarith

/-- The float comparison of the two aspect ratios agrees with the exact comparison when the
cross products are at most `2 ^ 50`. -/
theorem aspect_lt (w h mw mh : Int) (hw : 0 < w) (hh : 0 < h) (hmw : 0 < mw) (hmh : 0 < mh)
    (hp1 : w * mh ≤ 2 ^ 50) (hlt : mw * h < w * mh) :
    roundFloat64 ((mw : ℚ) / mh) < roundFloat64 ((w : ℚ) / h) := by
  have hwq : (0 : ℚ) < w := by exact_mod_cast hw
  have hhq : (0 : ℚ) < h := by exact_mod_cast hh
  have hmwq : (0 : ℚ) < mw := by exact_mod_cast hmw
  have hmhq : (0 : ℚ) < mh := by exact_mod_cast hmh
  obtain ⟨a1, _⟩ := roundFloat64_div_bounds (w : ℚ) h hwq hhq
  obtain ⟨_, b2⟩ := roundFloat64_div_bounds (mw : ℚ) mh hmwq hmhq
  have hP : ((mw * h + 1 : Int) : ℚ) ≤ ((w * mh : Int) : ℚ) := by exact_mod_cast hlt
  have hP1 : ((w * mh : Int) : ℚ) ≤ ((2 ^ 50 : Int) : ℚ) := by exact_mod_cast hp1
  push_cast at hP hP1
  by_contra hcon
  have hle : roundFloat64 ((w : ℚ) / h) ≤ roundFloat64 ((mw : ℚ) / mh) := not_lt.mp hcon
  have k1 : roundFloat64 ((w : ℚ) / h) * h * mh ≤ roundFloat64 ((mw : ℚ) / mh) * h * mh :=
    mul_le_mul_of_nonneg_right (mul_le_mul_of_nonneg_right hle (le_of_lt hhq)) (le_of_lt hmhq)
  have k2 : ((w : ℚ) - w / 2 ^ 53) * mh ≤ roundFloat64 ((w : ℚ) / h) * h * mh :=
    mul_le_mul_of_nonneg_right a1 (le_of_lt hmhq)
  have k3 : roundFloat64 ((mw : ℚ) / mh) * mh * h ≤ ((mw : ℚ) + mw / 2 ^ 53) * h :=
    mul_le_mul_of_nonneg_right b2 (le_of_lt hhq)
  have k4 : roundFloat64 ((mw : ℚ) / mh) * h * mh = roundFloat64 ((mw : ℚ) / mh) * mh * h := by
    ring
  have k5 : ((w : ℚ) - w / 2 ^ 53) * mh = (w : ℚ) * mh - (w : ℚ) * mh / 2 ^ 53 := by ring
  have k6 : ((mw : ℚ) + mw / 2 ^ 53) * h = (mw : ℚ) * h + (mw : ℚ) * h / 2 ^ 53 := by ring
  rw [k4] at k1
  rw [k5] at k2
  rw [k6] at k3
  linarith


/-- The scaled dimension of the first branch: the float result of `maxWidth / aspect` is within
one over `w` of the exact value `mw * h / w`. -/
theorem scaled_div (w h mw : Int) (hw : 0 < w) (hh : 0 < h) (hmw : 0 < mw)
    (hp : mw * h ≤ 2 ^ 50) :
    0 < roundFloat64 ((mw : ℚ) / roundFloat64 ((w : ℚ) / h))
      ∧ roundFloat64 ((mw : ℚ) / roundFloat64 ((w : ℚ) / h)) * w < ((mw * h : Int) : ℚ) + 1
      ∧ ((mw * h : Int) : ℚ) - 1 < roundFloat64 ((mw : ℚ) / roundFloat64 ((w : ℚ) / h)) * w := by
  have hwq : (0 : ℚ) < w := by exact_mod_cast hw
  have hhq : (0 : ℚ) < h := by exact_mod_cast hh
  have hmwq : (0 : ℚ) < mw := by exact_mod_cast hmw
  have hA : 0 < roundFloat64 ((w : ℚ) / h) := roundFloat64_pos _ (div_pos hwq hhq)
  obtain ⟨a1, a2⟩ := roundFloat64_div_bounds (w : ℚ) h hwq hhq
  obtain ⟨x1, x2⟩ := roundFloat64_div_bounds (mw : ℚ) (roundFloat64 ((w : ℚ) / h)) hmwq hA
  have hX : 0 < roundFloat64 ((mw : ℚ) / roundFloat64 ((w : ℚ) / h)) :=
    roundFloat64_pos _ (div_pos hmwq hA)
  have hP : ((mw * h : Int) : ℚ) ≤ ((2 ^ 50 : Int) : ℚ) := by exact_mod_cast hp
  push_cast at hP ⊢
  -- X * A * h is at most (mw + mw / 2 ^ 53) * h and at least X * (w - w / 2 ^ 53)
  have k1 := mul_le_mul_of_nonneg_right x2 (le_of_lt hhq)
  have k2 := mul_le_mul_of_nonneg_left a1 (le_of_lt hX)
  have k3 := mul_le_mul_of_nonneg_right x1 (le_of_lt hhq)
  have k4 := mul_le_mul_of_nonneg_left a2 (le_of_lt hX)
  have e1 : roundFloat64 ((mw : ℚ) / roundFloat64 ((w : ℚ) / h)) * roundFloat64 ((w : ℚ) / h) * h
      = roundFloat64 ((mw : ℚ) / roundFloat64 ((w : ℚ) / h)) * (roundFloat64 ((w : ℚ) / h) * h) := by
    ring
  rw [e1] at k1 k3
  have e2 : roundFloat64 ((mw : ℚ) / roundFloat64 ((w : ℚ) / h)) * ((w : ℚ) - w / 2 ^ 53)
      = roundFloat64 ((mw : ℚ) / roundFloat64 ((w : ℚ) / h)) * w
        - roundFloat64 ((mw : ℚ) / roundFloat64 ((w : ℚ) / h)) * w / 2 ^ 53 := by ring
  have e3 : roundFloat64 ((mw : ℚ) / roundFloat64 ((w : ℚ) / h)) * ((w : ℚ) + w / 2 ^ 53)
      = roundFloat64 ((mw : ℚ) / roundFloat64 ((w : ℚ) / h)) * w
        + roundFloat64 ((mw : ℚ) / roundFloat64 ((w : ℚ) / h)) * w / 2 ^ 53 := by ring
  have e4 : ((mw : ℚ) + mw / 2 ^ 53) * h = (mw : ℚ) * h + (mw : ℚ) * h / 2 ^ 53 := by ring
  have e5 : ((mw : ℚ) - mw / 2 ^ 53) * h = (mw : ℚ) * h - (mw : ℚ) * h / 2 ^ 53 := by ring
  rw [e2] at k2
  rw [e3] at k4
  rw [e4] at k1
  rw [e5] at k3
  refine ⟨hX, ?_, ?_⟩
  · linarith
  · linarith

/-- The scaled dimension of the second branch: the float result of `maxHeight * aspect` is
within one over `h` of the exact value `w * mh / h`. -/
theorem scaled_mul (w h mh : Int) (hw : 0 < w) (hh : 0 < h) (hmh : 0 < mh)
    (hp : w * mh ≤ 2 ^ 50) :
    0 < roundFloat64 ((mh : ℚ) * roundFloat64 ((w : ℚ) / h))
      ∧ roundFloat64 ((mh : ℚ) * roundFloat64 ((w : ℚ) / h)) * h < ((w * mh : Int) : ℚ) + 1
      ∧ ((w * mh : Int) : ℚ) - 1 < roundFloat64 ((mh : ℚ) * roundFloat64 ((w : ℚ) / h)) * h := by
  have hwq : (0 : ℚ) < w := by exact_mod_cast hw
  have hhq : (0 : ℚ) < h := by exact_mod_cast hh
  have hmhq : (0 : ℚ) < mh := by exact_mod_cast hmh
  have hA : 0 < roundFloat64 ((w : ℚ) / h) := roundFloat64_pos _ (div_pos hwq hhq)
  obtain ⟨a1, a2⟩ := roundFloat64_div_bounds (w : ℚ) h hwq hhq
  have hT : 0 < (mh : ℚ) * roundFloat64 ((w : ℚ) / h) := mul_pos hmhq hA
  have hY : 0 < roundFloat64 ((mh : ℚ) * roundFloat64 ((w : ℚ) / h)) := roundFloat64_pos _ hT
  have hy := roundFloat64_error _ hT
  rw [abs_le] at hy
  have hP : ((w * mh : Int) : ℚ) ≤ ((2 ^ 50 : Int) : ℚ) := by exact_mod_cast hp
  push_cast at hP ⊢
  have k1 := mul_le_mul_of_nonneg_right hy.1 (le_of_lt hhq)
  have k2 := mul_le_mul_of_nonneg_right hy.2 (le_of_lt hhq)
  have k3 := mul_le_mul_of_nonneg_left a1 (le_of_lt hmhq)
  have k4 := mul_le_mul_of_nonneg_left a2 (le_of_lt hmhq)
  have e1 : (roundFloat64 ((mh : ℚ) * roundFloat64 ((w : ℚ) / h))
      - (mh : ℚ) * roundFloat64 ((w : ℚ) / h)) * h
      = roundFloat64 ((mh : ℚ) * roundFloat64 ((w : ℚ) / h)) * h
        - (mh : ℚ) * (roundFloat64 ((w : ℚ) / h) * h) := by ring
  have e2 : (mh : ℚ) * roundFloat64 ((w : ℚ) / h) / 2 ^ 53 * h
      = (mh : ℚ) * (roundFloat64 ((w : ℚ) / h) * h) / 2 ^ 53 := by ring
  have e3 : (mh : ℚ) * ((w : ℚ) - w / 2 ^ 53) = (w : ℚ) * mh - (w : ℚ) * mh / 2 ^ 53 := by ring
  have e4 : (mh : ℚ) * ((w : ℚ) + w / 2 ^ 53) = (w : ℚ) * mh + (w : ℚ) * mh / 2 ^ 53 := by ring
  rw [e1] at k1 k2
  rw [neg_mul, e2] at k1
  rw [e2] at k2
  rw [e3] at k3
  rw [e4] at k4
  refine ⟨hY, ?_, ?_⟩
  · linarith
  · linarith


theorem mul_le_two_pow_fifty (a b : Int) (_ha : 0 < a) (hb : 0 < b) (ha2 : a ≤ 2 ^ 25)
    (hb2 : b ≤ 2 ^ 25) : a * b ≤ 2 ^ 50 := by
  have h := Int.mul_le_mul ha2 hb2 (le_of_lt hb) (by norm_num : (0 : Int) ≤ 2 ^ 25)
  calc a * b ≤ 2 ^ 25 * 2 ^ 25 := h
    _ = 2 ^ 50 := by norm_num

/-- C9 (amended). For positive `width`, `height`, `maxWidth`, `maxHeight` up to `2 ^ 25`,
`calcAspectSize`, computed in `float64` as the code does, returns a size within the bounds.
When the source is wider than the bounds the width is `maxWidth` and the height `r` is the
source height scaled by `maxWidth / width` and truncated, or one less when the scaled height
is a whole number: `r * width ≤ maxWidth * height ≤ (r + 1) * width`. Otherwise the height is
`maxHeight` and the width is the source width scaled by `maxHeight / height` in the same
sense. -/
theorem calcAspectSize_fits (width height maxWidth maxHeight : Int)
    (hw : 0 < width) (hh : 0 < height) (hmw : 0 < maxWidth) (hmh : 0 < maxHeight)
    (hw2 : width ≤ 2 ^ 25) (hh2 : height ≤ 2 ^ 25) (hmw2 : maxWidth ≤ 2 ^ 25)
    (hmh2 : maxHeight ≤ 2 ^ 25) :
    ∃ s, calcAspectSize width height maxWidth maxHeight = some s
      ∧ 0 ≤ s.Width ∧ s.Width ≤ maxWidth ∧ 0 ≤ s.Height ∧ s.Height ≤ maxHeight
      ∧ (maxWidth * height < width * maxHeight →
          s.Width = maxWidth
            ∧ s.Height * width ≤ maxWidth * height
            ∧ maxWidth * height ≤ (s.Height + 1) * width)
      ∧ (width * maxHeight ≤ maxWidth * height →
          s.Height = maxHeight
            ∧ s.Width * height ≤ width * maxHeight
            ∧ width * maxHeight ≤ (s.Width + 1) * height) := by
  have cw := roundFloat64_intCast width hw (by omega)
  have ch := roundFloat64_intCast height hh (by omega)
  have cmw := roundFloat64_intCast maxWidth hmw (by omega)
  have cmh := roundFloat64_intCast maxHeight hmh (by omega)
  have hwq : (0 : ℚ) < width := by exact_mod_cast hw
  have hhq : (0 : ℚ) < height := by exact_mod_cast hh
  have hA : 0 < roundFloat64 ((width : ℚ) / height) := roundFloat64_pos _ (div_pos hwq hhq)
  have hzero : ¬ (height = 0 ∨ maxHeight = 0) := by omega
  have p1 := mul_le_two_pow_fifty width maxHeight hw hmh hw2 hmh2
  have p2 := mul_le_two_pow_fifty maxWidth height hmw hh hmw2 hh2
  unfold calcAspectSize
  simp only [if_neg hzero, cw, ch, cmw, cmh]
  by_cases hlt : maxWidth * height < width * maxHeight
  · have hgt : roundFloat64 ((width : ℚ) / height) > roundFloat64 ((maxWidth : ℚ) / maxHeight) :=
      aspect_lt width height maxWidth maxHeight hw hh hmw hmh p1 hlt
    obtain ⟨hX, x1, x2⟩ := scaled_div width height maxWidth hw hh hmw p2
    obtain ⟨f1, f2⟩ := floor_near_fraction _ (maxWidth * height) width hw
      (by push_cast at x1 ⊢; exact x1) (by push_cast at x2 ⊢; exact x2)
    have hf0 : 0 ≤ ⌊roundFloat64 ((maxWidth : ℚ) / roundFloat64 ((width : ℚ) / height))⌋ :=
      Int.floor_nonneg.mpr (le_of_lt hX)
    have hfle : ⌊roundFloat64 ((maxWidth : ℚ) / roundFloat64 ((width : ℚ) / height))⌋
        ≤ maxWidth * height := by nlinarith
    have hint := int64OfFloat64_of_nonneg _ (le_of_lt hX) (by omega)
    rw [if_pos hgt, if_neg (ne_of_gt hA)]
    refine ⟨_, rfl, ?_⟩
    rw [hint]
    refine ⟨le_of_lt hmw, le_refl _, hf0, ?_, fun _ => ⟨rfl, f1, f2⟩, fun h => ?_⟩
    · have : ⌊roundFloat64 ((maxWidth : ℚ) / roundFloat64 ((width : ℚ) / height))⌋ * width
          < maxHeight * width := by nlinarith
      exact le_of_lt (lt_of_mul_lt_mul_right this (le_of_lt hw))
    · omega
  · have hle : width * maxHeight ≤ maxWidth * height := not_lt.mp hlt
    have hngt : ¬ roundFloat64 ((width : ℚ) / height)
        > roundFloat64 ((maxWidth : ℚ) / maxHeight) := by
      rcases lt_or_eq_of_le hle with h | h
      · exact not_lt.mpr (le_of_lt
          (aspect_lt maxWidth maxHeight width height hmw hmh hw hh p2 h))
      · have hmhq : (0 : ℚ) < maxHeight := by exact_mod_cast hmh
        have heq : (width : ℚ) / height = (maxWidth : ℚ) / maxHeight := by
          rw [div_eq_div_iff (ne_of_gt hhq) (ne_of_gt hmhq)]
          exact_mod_cast h
        rw [heq]
        exact lt_irrefl _
    obtain ⟨hY, y1, y2⟩ := scaled_mul width height maxHeight hw hh hmh p1
    obtain ⟨f1, f2⟩ := floor_near_fraction _ (width * maxHeight) height hh
      (by push_cast at y1 ⊢; exact y1) (by push_cast at y2 ⊢; exact y2)
    have hf0 : 0 ≤ ⌊roundFloat64 ((maxHeight : ℚ) * roundFloat64 ((width : ℚ) / height))⌋ :=
      Int.floor_nonneg.mpr (le_of_lt hY)
    have hfle : ⌊roundFloat64 ((maxHeight : ℚ) * roundFloat64 ((width : ℚ) / height))⌋
        ≤ width * maxHeight := by nlinarith
    have hint := int64OfFloat64_of_nonneg _ (le_of_lt hY) (by omega)
    rw [if_neg hngt]
    refine ⟨_, rfl, ?_⟩
    rw [hint]
    refine ⟨hf0, ?_, le_of_lt hmh, le_refl _, fun h => ?_, fun _ => ⟨rfl, f1, f2⟩⟩
    · have : ⌊roundFloat64 ((maxHeight : ℚ) * roundFloat64 ((width : ℚ) / height))⌋ * height
          ≤ maxWidth * height := le_trans f1 hle
      exact le_of_mul_le_mul_right this hh
    · omega


/-! ### Two runs of the float arithmetic -/

theorem roundFloat64_one : roundFloat64 1 = 1 := by
  rw [roundFloat64_of_near 1 (-52) (2 ^ 52) (by norm_num) (by norm_num) (by norm_num)
    (by norm_num) (by norm_num)]
  norm_num

theorem roundFloat64_49 : roundFloat64 49 = 49 := by
  rw [roundFloat64_of_near 49 (-47) (49 * 2 ^ 47) (by norm_num) (by norm_num) (by norm_num)
    (by norm_num) (by norm_num)]
  norm_num

theorem roundFloat64_one_div_49 :
    roundFloat64 (1 / 49) = 5882252574524729 / 288230376151711744 := by
  rw [roundFloat64_of_near (1 / 49) (-58) 5882252574524729 (by norm_num) (by norm_num)
    (by norm_num) (by norm_num) (by norm_num)]
  norm_num

theorem roundFloat64_49_mul :
    roundFloat64 (49 * (5882252574524729 / 288230376151711744))
      = 9007199254740991 / 9007199254740992 := by
  rw [roundFloat64_of_near _ (-53) 9007199254740991 (by norm_num) (by norm_num)
    (by norm_num) (by norm_num) (by norm_num)]
  norm_num

theorem int64OfFloat64_below_one :
    int64OfFloat64 (9007199254740991 / 9007199254740992) = 0 := by
  have hf : ⌊(9007199254740991 / 9007199254740992 : ℚ)⌋ = 0 := by
    rw [Int.floor_eq_iff]
    norm_num
  rw [int64OfFloat64_of_nonneg _ (by norm_num) (by rw [hf]; norm_num), hf]

/-- A source of 1 by 49 in a box of 1 by 49: `49 * (1 / 49)` is a float below 1, so the width
is 0. -/
theorem calcAspectSize_1_49 :
    calcAspectSize 1 49 1 49 = some { Width := 0, Height := 49 } := by
  unfold calcAspectSize
  simp only [Int.cast_one, Int.cast_ofNat, roundFloat64_one, roundFloat64_49,
    roundFloat64_one_div_49, roundFloat64_49_mul, int64OfFloat64_below_one]
  norm_num

theorem roundFloat64_big_odd : roundFloat64 9007199254740995 = 9007199254740996 := by
  rw [roundFloat64_of_tie_odd 9007199254740995 1 4503599627370497 (by norm_num) (by norm_num)
    (by norm_num) (by norm_num) (by norm_num)]
  norm_num

theorem roundFloat64_big_even : roundFloat64 9007199254740996 = 9007199254740996 := by
  rw [roundFloat64_of_near 9007199254740996 1 4503599627370498 (by norm_num) (by norm_num)
    (by norm_num) (by norm_num) (by norm_num)]
  norm_num

theorem int64OfFloat64_big : int64OfFloat64 9007199254740996 = 9007199254740996 := by
  have hf : ⌊(9007199254740996 : ℚ)⌋ = 9007199254740996 := by
    rw [Int.floor_eq_iff]
    norm_num
  rw [int64OfFloat64_of_nonneg _ (by norm_num) (by rw [hf]; norm_num), hf]

/-- A width of `2 ^ 53 + 3` is not a float: `float64(width)` is `2 ^ 53 + 4`. -/
theorem calcAspectSize_big :
    calcAspectSize 9007199254740995 1 9007199254740995 1
      = some { Width := 9007199254740996, Height := 1 } := by
  unfold calcAspectSize
  simp only [Int.cast_one, Int.cast_ofNat, roundFloat64_one, roundFloat64_big_odd, div_one,
    one_mul, roundFloat64_big_even, int64OfFloat64_big]
  norm_num

theorem roundFloat64_150 : roundFloat64 150 = 150 := by
  rw [roundFloat64_of_near 150 (-45) 5277655813324800 (by norm_num) (by norm_num) (by norm_num)
    (by norm_num) (by norm_num)]
  norm_num

theorem roundFloat64_114 : roundFloat64 114 = 114 := by
  rw [roundFloat64_of_near 114 (-46) 8022036836253696 (by norm_num) (by norm_num) (by norm_num)
    (by norm_num) (by norm_num)]
  norm_num

theorem roundFloat64_300 : roundFloat64 300 = 300 := by
  rw [roundFloat64_of_near 300 (-44) 5277655813324800 (by norm_num) (by norm_num) (by norm_num)
    (by norm_num) (by norm_num)]
  norm_num

theorem roundFloat64_300_div_300 : roundFloat64 (300 / 300) = 1 := by
  rw [div_self (by norm_num)]
  exact roundFloat64_one

theorem roundFloat64_150_div_114 :
    roundFloat64 (150 / 114) = 740723622922779 / 562949953421312 := by
  rw [roundFloat64_of_near (150 / 114) (-52) 5925788983382232 (by norm_num) (by norm_num)
    (by norm_num) (by norm_num) (by norm_num)]
  norm_num

theorem roundFloat64_300_div_aspect :
    roundFloat64 (300 / (740723622922779 / 562949953421312))
      = 8022036836253695 / 35184372088832 := by
  rw [roundFloat64_of_near _ (-45) 8022036836253695 (by norm_num) (by norm_num)
    (by norm_num) (by norm_num) (by norm_num)]
  norm_num

theorem int64OfFloat64_below_228 :
    int64OfFloat64 (8022036836253695 / 35184372088832) = 227 := by
  have hf : ⌊(8022036836253695 / 35184372088832 : ℚ)⌋ = 227 := by
    rw [Int.floor_eq_iff]
    norm_num
  rw [int64OfFloat64_of_nonneg _ (by norm_num) (by rw [hf]; norm_num), hf]

/-- A source of 150 by 114 in a box of 300 by 300: `300 / (150 / 114)` is a float below 228, so
the height is 227. -/
theorem calcAspectSize_150_114 :
    calcAspectSize 150 114 300 300 = some { Width := 300, Height := 227 } := by
  unfold calcAspectSize
  simp only [Int.cast_ofNat, roundFloat64_150, roundFloat64_114, roundFloat64_300,
    roundFloat64_300_div_300, roundFloat64_150_div_114, roundFloat64_300_div_aspect,
    int64OfFloat64_below_228]
  norm_num

/-- C9, counterexample. With a width and a maximal width of `2 ^ 53 + 3` and heights of 1 the
result is wider than the bound; with a source of 1 by 49 in a box of 1 by 49 the width is 0,
where the exactly scaled width is 1; with a source of 150 by 114 in a box of 300 by 300 the
height is 227, where the exactly scaled height is 228. -/
theorem calcAspectSize_float_rounding :
    (calcAspectSize 9007199254740995 1 9007199254740995 1
        = some { Width := 9007199254740996, Height := 1 }
      ∧ ¬ ((9007199254740996 : Int) ≤ 9007199254740995))
    ∧ (calcAspectSize 1 49 1 49 = some { Width := 0, Height := 49 }
      ∧ (1 : ℚ) * ((49 : ℚ) / 49) = 1)
    ∧ (calcAspectSize 150 114 300 300 = some { Width := 300, Height := 227 }
      ∧ (114 : ℚ) * ((300 : ℚ) / 150) = 228) :=
  ⟨⟨calcAspectSize_big, by decide⟩, ⟨calcAspectSize_1_49, by norm_num⟩,
    ⟨calcAspectSize_150_114, by norm_num⟩⟩

/-- C9, witness: a 1920 by 1080 source in a 300 by 300 box. -/
theorem calcAspectSize_fits_witness :
    ((0 : Int) < 1920 ∧ (0 : Int) < 1080 ∧ (0 : Int) < 300
      ∧ (1920 : Int) ≤ 2 ^ 25 ∧ (1080 : Int) ≤ 2 ^ 25 ∧ (300 : Int) ≤ 2 ^ 25)
    ∧ ∃ s, calcAspectSize 1920 1080 300 300 = some s
      ∧ 0 ≤ s.Width ∧ s.Width ≤ 300 ∧ 0 ≤ s.Height ∧ s.Height ≤ 300
      ∧ ((300 : Int) * 1080 < 1920 * 300 →
          s.Width = 300 ∧ s.Height * 1920 ≤ 300 * 1080 ∧ 300 * 1080 ≤ (s.Height + 1) * 1920)
      ∧ ((1920 : Int) * 300 ≤ 300 * 1080 →
          s.Height = 300 ∧ s.Width * 1080 ≤ 1920 * 300 ∧ 1920 * 300 ≤ (s.Width + 1) * 1080) :=
  ⟨by decide,
    calcAspectSize_fits 1920 1080 300 300 (by decide) (by decide) (by decide) (by decide)
      (by decide) (by decide) (by decide) (by decide)⟩

end Revcatgpt
